import Mathlib

/-!
# Verification of the document-extraction core

A shallow Lean 4 embedding of the OCR-correction, field-validation,
post-processing and fraud-analysis core of the `ai-document-extraction`
repository (`src/api/lib/documentService.ts` and
`src/api/lib/fraudDetection.ts`), together with theorems settling the
specification's claims about it.

Strings are modelled as `List Char` (`Str`).  JavaScript floating point
confidence arithmetic is modelled exactly over `ℚ` (every constant in the
code is a short decimal literal and the claims are about these values, not
about binary rounding).  JavaScript `NaN` propagation through `parseInt`
and `Date` is modelled with `Option`.
-/

set_option maxRecDepth 10000

namespace DocVal

abbrev Str := List Char

/-- The whitespace characters of the JS `\s` class that this pipeline can
meet (ASCII range).  `documentService.ts` strips them everywhere. -/
def jsWhitespace : List Char := [' ', '\t', '\n', '\r', '\x0b', '\x0c']

def isJsWs (c : Char) : Bool := jsWhitespace.contains c

/-- Finite character-to-character substitution: the common shape of every
`String.replace` chain in `normalizeOCRString` (each chain substitutes
single characters and no output of an earlier rule is an input of a later
rule, so the sequential regex replacements are a single simultaneous map). -/
def applyMap (m : List (Char × Char)) (c : Char) : Char := (m.lookup c).getD c

/-- JS `toUpperCase`, restricted to the code points the pipeline
manipulates: ASCII letters plus `ñ`/`Ñ` from the CURP alphabet.  All other
code points are returned unchanged. -/
def upperPairs : List (Char × Char) :=
  [('a','A'), ('b','B'), ('c','C'), ('d','D'), ('e','E'), ('f','F'),
   ('g','G'), ('h','H'), ('i','I'), ('j','J'), ('k','K'), ('l','L'),
   ('m','M'), ('n','N'), ('o','O'), ('p','P'), ('q','Q'), ('r','R'),
   ('s','S'), ('t','T'), ('u','U'), ('v','V'), ('w','W'), ('x','X'),
   ('y','Y'), ('z','Z'), ('ñ','Ñ')]

/-- JS `toLowerCase` on the same code points. -/
def lowerPairs : List (Char × Char) :=
  [('A','a'), ('B','b'), ('C','c'), ('D','d'), ('E','e'), ('F','f'),
   ('G','g'), ('H','h'), ('I','i'), ('J','j'), ('K','k'), ('L','l'),
   ('M','m'), ('N','n'), ('O','o'), ('P','p'), ('Q','q'), ('R','r'),
   ('S','s'), ('T','t'), ('U','u'), ('V','v'), ('W','w'), ('X','x'),
   ('Y','y'), ('Z','z'), ('Ñ','ñ')]

def upperChar (c : Char) : Char := applyMap upperPairs c

def lowerChar (c : Char) : Char := applyMap lowerPairs c

/-- Noise characters stripped by `normalizeOCRString`
(`/[\s\-_.,:;'"]/g`), beyond whitespace. -/
def noiseChars : List Char := ['-', '_', '.', ',', ':', ';', '\'', '"']

def isNoise (c : Char) : Bool := isJsWs c || noiseChars.contains c

/-- Characters stripped by the CURP/RFC/VIN/placas validators
(`/[\s\-]/g`). -/
def isHyphenWs (c : Char) : Bool := isJsWs c || c == '-'

/-- The `numeric` context substitutions of `normalizeOCRString`, as a
single character map.  The source applies the seven regex replacements
after `toUpperCase()`, so lowercase keys can never match there; they are
kept here so the map is literally the union of the source's rules. -/
def numericPairs : List (Char × Char) :=
  [('O','0'), ('o','0'), ('Q','0'), ('D','0'),
   ('I','1'), ('i','1'), ('l','1'), ('L','1'), ('|','1'), ('!','1'),
   ('Z','2'), ('z','2'),
   ('S','5'), ('s','5'), ('$','5'),
   ('G','6'), ('b','6'),
   ('B','8'),
   ('g','9'), ('q','9')]

/-- The `alpha` context substitutions of `normalizeOCRString`. -/
def alphaPairs : List (Char × Char) :=
  [('0','O'), ('1','I'), ('2','Z'), ('5','S'), ('6','G'), ('8','B'), ('9','G')]

inductive OCRContext where
  | alpha
  | numeric
  | alphanumeric
deriving DecidableEq, Repr

/-- Body of `normalizeOCRString` (everything after the falsy-input
guard): upper-case, strip whitespace/noise, then the context map.
`trim()` in the source is subsumed by the global whitespace strip. -/
def normCore (input : Str) (ctx : OCRContext) : Str :=
  let base := (input.map upperChar).filter (fun c => !(isNoise c))
  match ctx with
  | .numeric => base.map (applyMap numericPairs)
  | .alpha => base.map (applyMap alphaPairs)
  | .alphanumeric => base

/-- `normalizeOCRString` from `documentService.ts` (line 95): empty input
is returned unchanged, otherwise `normCore`. -/
def normalizeOCRString (input : Str) (ctx : OCRContext) : Str :=
  if input = [] then input else normCore input ctx

/-! ## Field validators (`documentService.ts`, lines 131–487)

Correction-log entries are modelled by an inductive type; each constructor
corresponds to one distinct message template of the source and carries the
template's variable parts, so distinct source messages stay distinct. -/

inductive Correction where
  /-- CURP/RFC `'Added missing character'` -/
  | addedMissingChar
  /-- CURP/RFC `'Removed extra character'` -/
  | removedExtraChar
  /-- CLABE/NSS `'Added leading zero'` -/
  | addedLeadingZero
  /-- CLABE/NSS `'Removed extra digit'` -/
  | removedExtraDigit
  /-- CURP/RFC `` `Position ${pos}: ${original} → ${corrected[pos]}` `` -/
  | position (pos : Nat) (old updated : Str)
  /-- CURP `` `Position 10: ${original} → H (gender)` `` -/
  | genderFix (old : Str)
  /-- CURP `` `Verification digit: ${actual} → ${expected} (checksum)` `` -/
  | verificationDigit (old : Option Char) (updated : Str)
  /-- CLABE `` `Checksum mismatch: expected ${e}, got ${a}` `` (`none` = `NaN`) -/
  | checksumMismatch (expected actual : Option Nat)
  /-- NSS `` `Invalid length: ${n} (expected 11)` `` -/
  | invalidLength (len : Nat)
  /-- NSS `` `Verification digit: ${actual} → ${expected}` `` -/
  | nssVerification (old : Option Char) (updated : Char)
  /-- VIN `'Replaced I/O/Q with 1/0/0'` -/
  | replacedIOQ
deriving DecidableEq, Repr

/-- `FieldValidationResult` from `documentService.ts`.  A source result
without a `corrections` key is modelled by the empty list. -/
structure FieldValidationResult where
  valid : Bool
  corrected : Str
  confidence : ℚ
  corrections : List Correction
deriving DecidableEq, Repr

def digitChar (n : Nat) : Char := Char.ofNat (48 + n)

def digitVal (c : Char) : Nat := c.toNat - 48

/-- JS `parseInt(s, 10)`: skip leading whitespace, optional sign, then the
maximal run of leading decimal digits; `none` models `NaN`. -/
def parseDigits (l : Str) : Option Nat :=
  let ds := l.takeWhile Char.isDigit
  if ds = [] then none else some (ds.foldl (fun a c => a * 10 + digitVal c) 0)

def parseIntJS (s : Str) : Option Int :=
  match s.dropWhile isJsWs with
  | '-' :: rest => (parseDigits rest).map (fun n => -(n : Int))
  | '+' :: rest => (parseDigits rest).map (fun n => (n : Int))
  | t => (parseDigits t).map (fun n => (n : Int))

/-! ### CURP validator (lines 135–290) -/

def curpDictionary : Str := "0123456789ABCDEFGHIJKLMNÑOPQRSTUVWXYZ".data

/-- The loop of `calculateCURPVerificationDigit`: `none` models the early
`return '0'` on a character that is outside the dictionary (in JS an
out-of-range index yields `undefined` and `indexOf` returns `-1`). -/
def curpSumAux (s : Str) (i fuel acc : Nat) : Option Nat :=
  match fuel with
  | 0 => some acc
  | f + 1 =>
    match s.get? i with
    | none => none
    | some c =>
      match curpDictionary.findIdx? (fun x => x == c) with
      | none => none
      | some idx => curpSumAux s (i + 1) f (acc + idx * (18 - i))

/-- `calculateCURPVerificationDigit` (line 135). -/
def calcCURPVerificationDigit (s : Str) : Str :=
  match curpSumAux s 0 17 0 with
  | none => ['0']
  | some sum =>
    let d := 10 - sum % 10
    if d = 10 then ['0'] else [digitChar d]

/-- `VALID_STATE_CODES` (line 153); the identical table also appears in
`fraudDetection.ts` line 97. -/
def VALID_STATE_CODES : List Str :=
  (["AS", "BC", "BS", "CC", "CL", "CM", "CS", "CH", "DF", "DG",
    "GT", "GR", "HG", "JC", "MC", "MN", "MS", "NT", "NL", "OC",
    "PL", "QT", "QR", "SP", "SL", "SR", "TC", "TS", "TL", "VZ",
    "YN", "ZS", "NE"]).map String.data

/-- One `forEach` position-fixing pass of `validateAndFixCURP`/`RFC`.
The working array is a list of cells (JS strings), because
`normalizeOCRString` on a one-character cell can return the empty string
(noise characters), which `join('')` then drops. -/
def fixPositions (cells : List Str) (ps : List Nat) (ctx : OCRContext)
    (corrs : List Correction) : List Str × List Correction :=
  ps.foldl
    (fun st pos =>
      match st.1.get? pos with
      | none => st
      | some cell =>
        if cell = [] then st
        else
          let c2 := normalizeOCRString cell ctx
          (st.1.set pos c2,
           st.2 ++ if cell ≠ c2 then [Correction.position pos cell c2] else []))
    (cells, corrs)

/-- The gender-position fix of `validateAndFixCURP` (lines 216–228). -/
def curpFixGender (cells : List Str) (corrs : List Correction) :
    List Str × List Correction :=
  match cells.get? 10 with
  | none => (cells, corrs)
  | some cell =>
    if cell = [] then (cells, corrs)
    else if cell == ['4'] || cell == ['A'] then
      (cells.set 10 ['H'], corrs ++ [Correction.genderFix cell])
    else if cell ≠ ['H'] ∧ cell ≠ ['M'] then
      if cell == ['|'] || cell == ['I'] || cell == ['1'] then
        (cells.set 10 ['H'], corrs ++ [Correction.genderFix cell])
      else (cells, corrs)
    else (cells, corrs)

/-- The disambiguation-position fix of `validateAndFixCURP`
(lines 230–246).  `birthYear` is parsed from the already digit-fixed
cells 4–5; `none` models `NaN`, for which `birthYear >= 0 && <= 99` is
false. -/
def curpFixDisamb (cells : List Str) (corrs : List Correction) :
    List Str × List Correction :=
  let birthYear := parseIntJS (((cells.drop 4).take 2).flatten)
  match cells.get? 16 with
  | none => (cells, corrs)
  | some cell =>
    if cell = [] then (cells, corrs)
    else
      match birthYear with
      | none => (cells, corrs)
      | some y =>
        if 0 ≤ y ∧ y ≤ 99 then
          if cell.any (fun c => 'A' ≤ c && c ≤ 'Z') then (cells, corrs)
          else
            let c2 := normalizeOCRString cell .numeric
            (cells.set 16 c2,
             corrs ++ if cell ≠ c2 then [Correction.position 16 cell c2] else [])
        else (cells, corrs)

/-- `validateAndFixCURP` up to (excluding) the checksum fix: the joined
string and the correction log after normalization, length repair and all
per-position fixes. -/
def curpPreChecksum (curp : Str) : Str × List Correction :=
  let n0 := (curp.map upperChar).filter (fun c => !(isHyphenWs c))
  let p1 : Str × List Correction :=
    if n0.length = 17 then (n0 ++ ['0'], [Correction.addedMissingChar])
    else if n0.length = 19 then (n0.take 18, [Correction.removedExtraChar])
    else (n0, [])
  let cells0 := p1.1.map (fun c => ([c] : Str))
  let p2 := fixPositions cells0 [0, 1, 2, 3, 11, 12, 13, 14, 15] .alpha p1.2
  let p3 := fixPositions p2.1 [4, 5, 6, 7, 8, 9] .numeric p2.2
  let p4 := curpFixGender p3.1 p3.2
  let p5 := curpFixDisamb p4.1 p4.2
  let p6 := fixPositions p5.1 [17] .numeric p5.2
  (p6.1.flatten, p6.2)

def isUpperAZ (c : Char) : Bool := 'A' ≤ c && c ≤ 'Z'

/-- The regex `^[A-Z]{4}\d{6}[HM][A-Z]{2}[A-Z]{3}[A-Z0-9]\d$` (line 273).
`[A-Z]` is ASCII, so `Ñ` fails it, exactly as in the source. -/
def curpPatternOK (s : Str) : Bool :=
  s.length == 18 &&
  ((s.take 4).all isUpperAZ) &&
  (((s.drop 4).take 6).all Char.isDigit) &&
  (s.getD 10 ' ' == 'H' || s.getD 10 ' ' == 'M') &&
  (((s.drop 11).take 5).all isUpperAZ) &&
  (isUpperAZ (s.getD 16 ' ') || Char.isDigit (s.getD 16 ' ')) &&
  Char.isDigit (s.getD 17 ' ')

/-- The tail of `validateAndFixCURP` (lines 259–289): checksum fix, state
code and pattern validation, confidence. -/
def curpFinal (result0 : Str) (corrs0 : List Correction) : FieldValidationResult :=
  let expected := calcCURPVerificationDigit (result0.take 17)
  let mismatch := (result0.get? 17).map (fun c => ([c] : Str)) ≠ some expected
  let corrs :=
    corrs0 ++ if mismatch then [Correction.verificationDigit (result0.get? 17) expected] else []
  let result := if mismatch then result0.take 17 ++ expected else result0
  let validState := VALID_STATE_CODES.contains ((result.drop 11).take 2)
  let patternValid := curpPatternOK result
  let confidence : ℚ :=
    max (3/10)
      (1 - (corrs.length : ℚ) * (3/100) - (if validState then 0 else 2/10) -
        (if patternValid then 0 else 3/10))
  ⟨patternValid && validState, result, confidence, corrs⟩

/-- `validateAndFixCURP` (line 160). -/
def validateAndFixCURP (curp : Str) : FieldValidationResult :=
  if curp = [] then ⟨false, [], 0, []⟩
  else
    let p := curpPreChecksum curp
    curpFinal p.1 p.2

/-! ### RFC validator (lines 292–341) -/

/-- `^[A-Z]{4}\d{6}[A-Z0-9]{3}$` -/
def rfcPatternPF (s : Str) : Bool :=
  s.length == 13 && (s.take 4).all isUpperAZ &&
  ((s.drop 4).take 6).all Char.isDigit &&
  ((s.drop 10).all fun c => isUpperAZ c || Char.isDigit c)

/-- `^[A-Z]{3}\d{6}[A-Z0-9]{3}$` -/
def rfcPatternPM (s : Str) : Bool :=
  s.length == 12 && (s.take 3).all isUpperAZ &&
  ((s.drop 3).take 6).all Char.isDigit &&
  ((s.drop 9).all fun c => isUpperAZ c || Char.isDigit c)

/-- `validateAndFixRFC` (line 292). -/
def validateAndFixRFC (rfc : Str) : FieldValidationResult :=
  if rfc = [] then ⟨false, [], 0, []⟩
  else
    let n0 := (rfc.map upperChar).filter (fun c => !(isHyphenWs c))
    let p1 : Str × List Correction :=
      if n0.length = 11 then (n0 ++ ['0'], [Correction.addedMissingChar])
      else if n0.length = 14 then (n0.take 13, [Correction.removedExtraChar])
      else (n0, [])
    let letterCount := if p1.1.length = 13 then 4 else 3
    let cells0 := p1.1.map (fun c => ([c] : Str))
    let p2 := fixPositions cells0 (List.range letterCount) .alpha p1.2
    let p3 :=
      fixPositions p2.1 ((List.range 6).map (fun i => letterCount + i)) .numeric p2.2
    let result := p3.1.flatten
    let isValid := rfcPatternPF result || rfcPatternPM result
    let confidence : ℚ :=
      if isValid then max (7/10) (1 - (p3.2.length : ℚ) * (5/100)) else 2/5
    ⟨isValid, result, confidence, p3.2⟩

/-! ### CLABE validator (lines 343–384) -/

def onlyDigits (l : Str) : Str := l.filter Char.isDigit

def clabeWeights : List Nat := [3, 7, 1, 3, 7, 1, 3, 7, 1, 3, 7, 1, 3, 7, 1, 3, 7]

/-- Digits-only normalized CLABE with length repair, and the repair log. -/
def clabeNormalized (clabe : Str) : Str × List Correction :=
  let nd := onlyDigits (normalizeOCRString clabe .numeric)
  if nd.length = 17 then ('0' :: nd, [Correction.addedLeadingZero])
  else if nd.length = 19 then (nd.take 18, [Correction.removedExtraDigit])
  else (nd, [])

/-- The weighted sum of the first 17 digits; `none` models the `NaN` that
the source's loop produces when the string is shorter than 17 (the string
is digits-only here, so `parseInt` succeeds exactly on present indices). -/
def clabeExpected (n : Str) : Option Nat :=
  if n.length < 17 then none
  else
    some ((10 - (((n.take 17).zip clabeWeights).foldl
      (fun s p => s + digitVal p.1 * p.2 % 10) 0) % 10) % 10)

def clabeActual (n : Str) : Option Nat := (n.get? 17).map digitVal

/-- `expectedChecksum === actualChecksum`; any `NaN` makes it false. -/
def clabeChecksumOK (n : Str) : Bool :=
  match clabeExpected n, clabeActual n with
  | some e, some a => e == a
  | _, _ => false

/-- `validateAndFixCLABE` (line 343). -/
def validateAndFixCLABE (clabe : Str) : FieldValidationResult :=
  if clabe = [] then ⟨false, [], 0, []⟩
  else
    let p := clabeNormalized clabe
    let ok := clabeChecksumOK p.1
    let corrs :=
      p.2 ++ if ok then [] else [Correction.checksumMismatch (clabeExpected p.1) (clabeActual p.1)]
    ⟨decide (p.1.length = 18) && ok, p.1, if ok then 19/20 else 3/5, corrs⟩

/-! ### VIN validator (lines 386–409) -/

def hasIOQ (l : Str) : Bool := l.any (fun c => c == 'I' || c == 'O' || c == 'Q')

def ioqMap (c : Char) : Char :=
  if c == 'I' then '1' else if c == 'O' then '0' else if c == 'Q' then '0' else c

/-- `^[A-HJ-NPR-Z0-9]{17}$` -/
def vinOk (s : Str) : Bool :=
  s.length == 17 &&
  s.all (fun c =>
    ('A' ≤ c && c ≤ 'H') || ('J' ≤ c && c ≤ 'N') || ('P' ≤ c && c ≤ 'P') ||
    ('R' ≤ c && c ≤ 'Z') || Char.isDigit c)

/-- `validateAndFixVIN` (line 386). -/
def validateAndFixVIN (vin : Str) : FieldValidationResult :=
  if vin = [] then ⟨false, [], 0, []⟩
  else
    let n0 := (vin.map upperChar).filter (fun c => !(isHyphenWs c))
    let p : Str × List Correction :=
      if hasIOQ n0 then (n0.map ioqMap, [Correction.replacedIOQ]) else (n0, [])
    ⟨vinOk p.1, p.1, if vinOk p.1 then 9/10 else 2/5, p.2⟩

/-! ### Placas validator (lines 411–422) -/

/-- `validateAndFixPlacas` (line 411). -/
def validateAndFixPlacas (placas : Str) : FieldValidationResult :=
  if placas = [] then ⟨false, [], 0, []⟩
  else
    let n := (placas.map upperChar).filter (fun c => !(isHyphenWs c))
    if 6 ≤ n.length ∧ n.length ≤ 8 then
      let ok := n.all (fun c => isUpperAZ c || Char.isDigit c)
      ⟨ok, n, if ok then 17/20 else 1/2, []⟩
    else ⟨false, n, 3/10, []⟩

/-! ### NSS validator (lines 429–487) -/

/-- One adjusted digit of the IMSS Luhn variant: double at even indices,
subtract 9 above 9. -/
def luhnAdjust (i d : Nat) : Nat :=
  if i % 2 = 0 then (if d * 2 > 9 then d * 2 - 9 else d * 2) else d

/-- `calculateNSSVerificationDigit` (line 454), over the first 10 digits. -/
def nssVerifier (l : Str) : Nat :=
  (10 - (((l.take 10).enum.foldl (fun s p => s + luhnAdjust p.1 (digitVal p.2)) 0) % 10)) % 10

/-- Checksum verification/overwrite and final packaging of
`validateAndFixNSS`, applied after length repair. -/
def nssCheck (n : Str) (corrs : List Correction) : FieldValidationResult :=
  let expected := digitChar (nssVerifier n)
  let actual := n.get? 10
  let p : Str × List Correction :=
    if actual ≠ some expected then
      (n.take 10 ++ [expected], corrs ++ [Correction.nssVerification actual expected])
    else (n, corrs)
  let isValid := p.1.length == 11 && p.1.all Char.isDigit
  ⟨isValid, p.1,
   if isValid then max (7/10) (1 - (p.2.length : ℚ) * (1/10)) else 2/5, p.2⟩

/-- `validateAndFixNSS` (line 429). -/
def validateAndFixNSS (nss : Str) : FieldValidationResult :=
  if nss = [] then ⟨false, [], 0, []⟩
  else
    let nd := onlyDigits (normalizeOCRString nss .numeric)
    if nd.length = 11 then nssCheck nd []
    else if nd.length = 10 then nssCheck ('0' :: nd) [Correction.addedLeadingZero]
    else if nd.length = 12 then nssCheck (nd.take 11) [Correction.removedExtraDigit]
    else ⟨false, nd, 3/10, [Correction.invalidLength nd.length]⟩

/-! ### `validateField` dispatch (line 1100) -/

inductive FieldKind where
  | curp
  | rfc
  | clabe
  | vin
  | placas
  | nss
deriving DecidableEq, Repr

def validateField (k : FieldKind) (v : Str) : FieldValidationResult :=
  match k with
  | .curp => validateAndFixCURP v
  | .rfc => validateAndFixRFC v
  | .clabe => validateAndFixCLABE v
  | .vin => validateAndFixVIN v
  | .placas => validateAndFixPlacas v
  | .nss => validateAndFixNSS v

/-! ## Extraction post-processor (`documentService.ts`, lines 493–627)

`ExtractedData` is an open string map in the source; the post-processor
touches exactly the eight keys below and copies everything else through
unchanged (object spread), so the record models the handled keys.  The
fraud analyzer additionally reads the five metadata keys at the bottom. -/

structure ExtractedData where
  curp : Option Str := none
  rfc : Option Str := none
  clabe : Option Str := none
  placas : Option Str := none
  vin : Option Str := none
  nss : Option Str := none
  nombre : Option Str := none
  razonSocial : Option Str := none
  sexo : Option Str := none
  fechaNacimiento : Option Str := none
  vigencia : Option Str := none
  vigenciaFin : Option Str := none
  anio : Option Str := none
deriving DecidableEq, Repr

/-- Substring test (JS `String.includes`). -/
def containsSeq (pat : Str) : Str → Bool
  | [] => pat == []
  | c :: tl => pat.isPrefixOf (c :: tl) || containsSeq pat tl

/-- `isIllegible` (line 494). -/
def isIllegible (v : Str) : Bool :=
  containsSeq "***".data v || v == "***".data || v.contains '*'

/-- A post-processor correction line `` `FIELD: "raw" → "corrected"` ``. -/
structure PostCorrection where
  field : String
  raw : Str
  corrected : Str
deriving DecidableEq, Repr

/-- The mutable state threaded through the post-processor's field blocks. -/
structure PPState where
  out : ExtractedData
  corrections : List PostCorrection
  illegible : List String
  total : ℚ
  count : Nat
deriving DecidableEq, Repr

/-- One validated-field block of `postProcessExtractedData`: skip absent or
empty values, pass illegible values through, otherwise validate, record a
correction when the value changed and accumulate the confidence. -/
def handleValidated (name : String) (get : ExtractedData → Option Str)
    (set : ExtractedData → Str → ExtractedData)
    (validator : Str → FieldValidationResult) (d : ExtractedData)
    (st : PPState) : PPState :=
  match get d with
  | none => st
  | some v =>
    if v = [] then st
    else if isIllegible v then
      { st with out := set st.out v, illegible := st.illegible ++ [name] }
    else
      let r := validator v
      { st with
        out := set st.out r.corrected
        corrections :=
          st.corrections ++ (if r.corrected ≠ v then [⟨name, v, r.corrected⟩] else [])
        total := st.total + r.confidence
        count := st.count + 1 }

/-- One name-like block (`nombre`/`razonSocial`): light formatting only,
no confidence contribution, no correction log. -/
def handleName (name : String) (get : ExtractedData → Option Str)
    (set : ExtractedData → Str → ExtractedData) (fmt : Str → Str)
    (d : ExtractedData) (st : PPState) : PPState :=
  match get d with
  | none => st
  | some v =>
    if v = [] then st
    else if isIllegible v then
      { st with out := set st.out v, illegible := st.illegible ++ [name] }
    else { st with out := set st.out (fmt v) }

def trimJs (l : Str) : Str := ((l.dropWhile isJsWs).reverse.dropWhile isJsWs).reverse

/-- Collapse runs of spaces left by mapping whitespace to a space
(the `replace(/\s+/g, ' ')` step). -/
def squeezeSpaces : Str → Str
  | [] => []
  | [c] => [c]
  | a :: b :: rest =>
    if a == ' ' && b == ' ' then squeezeSpaces (b :: rest)
    else a :: squeezeSpaces (b :: rest)

def collapseWs (l : Str) : Str :=
  squeezeSpaces ((trimJs l).map (fun c => if isJsWs c then ' ' else c))

/-- `word.charAt(0).toUpperCase() + word.slice(1).toLowerCase()` -/
def titleWord : Str → Str
  | [] => []
  | c :: rest => upperChar c :: rest.map lowerChar

/-- The `nombre` formatting (lines 606–611). -/
def nombreFormat (v : Str) : Str :=
  List.intercalate [' '] (((collapseWs v).splitOn ' ').map titleWord)

/-- The `razonSocial` formatting (line 620). -/
def razonFormat (v : Str) : Str := (collapseWs v).map upperChar

def setCurp (e : ExtractedData) (v : Str) : ExtractedData := { e with curp := some v }
def setRfc (e : ExtractedData) (v : Str) : ExtractedData := { e with rfc := some v }
def setClabe (e : ExtractedData) (v : Str) : ExtractedData := { e with clabe := some v }
def setPlacas (e : ExtractedData) (v : Str) : ExtractedData := { e with placas := some v }
def setVin (e : ExtractedData) (v : Str) : ExtractedData := { e with vin := some v }
def setNss (e : ExtractedData) (v : Str) : ExtractedData := { e with nss := some v }
def setNombre (e : ExtractedData) (v : Str) : ExtractedData := { e with nombre := some v }
def setRazonSocial (e : ExtractedData) (v : Str) : ExtractedData :=
  { e with razonSocial := some v }

structure PPResult where
  correctedData : ExtractedData
  corrections : List PostCorrection
  overallConfidence : ℚ
  illegibleFields : List String
deriving DecidableEq, Repr

/-- The eight sequential field blocks of `postProcessExtractedData`, in
source order, threading the accumulator state. -/
def ppChain (d : ExtractedData) : PPState :=
  handleName "razonSocial" ExtractedData.razonSocial setRazonSocial razonFormat d
    (handleName "nombre" ExtractedData.nombre setNombre nombreFormat d
      (handleValidated "nss" ExtractedData.nss setNss validateAndFixNSS d
        (handleValidated "vin" ExtractedData.vin setVin validateAndFixVIN d
          (handleValidated "placas" ExtractedData.placas setPlacas validateAndFixPlacas d
            (handleValidated "clabe" ExtractedData.clabe setClabe validateAndFixCLABE d
              (handleValidated "rfc" ExtractedData.rfc setRfc validateAndFixRFC d
                (handleValidated "curp" ExtractedData.curp setCurp validateAndFixCURP d
                  ⟨d, [], [], 0, 0⟩)))))))

/-- `postProcessExtractedData` (line 498). -/
def postProcessExtractedData (d : ExtractedData) : PPResult :=
  ⟨(ppChain d).out, (ppChain d).corrections,
   if (ppChain d).count > 0 then (ppChain d).total / ((ppChain d).count : ℚ)
   else 3/10,
   (ppChain d).illegible⟩

/-! ## Fraud analyzer (`fraudDetection.ts`)

`Date` values are UTC-midnight-based millisecond timestamps (`Int`); the
ambient clock `new Date()` is an explicit `now` parameter.  Calendar
conversion uses the standard civil-from-days algorithm.  The float
divisions in the age checks are modelled by the equivalent exact integer
comparisons on millisecond differences. -/

def msPerDay : Int := 86400000

/-- Days-since-epoch of a civil date (proleptic Gregorian). -/
def daysFromCivil (y m d : Int) : Int :=
  let y2 := y - (if m ≤ 2 then 1 else 0)
  let era := Int.fdiv y2 400
  let yoe := y2 - era * 400
  let doy := Int.fdiv (153 * (m + (if m > 2 then -3 else 9)) + 2) 5 + d - 1
  let doe := yoe * 365 + Int.fdiv yoe 4 - Int.fdiv yoe 100 + doy
  era * 146097 + doe - 719468

/-- Civil date `(year, month 1–12, day)` of a days-since-epoch count. -/
def civilFromDays (z0 : Int) : Int × Int × Int :=
  let z := z0 + 719468
  let era := Int.fdiv z 146097
  let doe := z - era * 146097
  let yoe := Int.fdiv (doe - Int.fdiv doe 1460 + Int.fdiv doe 36524 - Int.fdiv doe 146096) 365
  let y := yoe + era * 400
  let doy := doe - (365 * yoe + Int.fdiv yoe 4 - Int.fdiv yoe 100)
  let mp := Int.fdiv (5 * doy + 2) 153
  let d := doy - Int.fdiv (153 * mp + 2) 5 + 1
  let m := mp + (if mp < 10 then 3 else -9)
  (y + (if m ≤ 2 then 1 else 0), m, d)

/-- JS `new Date(year, monthIndex, day).getTime()`: two-digit years map to
1900+, out-of-range months and days roll over, and a result beyond
±8.64e15 ms is an invalid date (`none` models `NaN`). -/
def jsMakeDate (year monthIndex day : Int) : Option Int :=
  let y := if 0 ≤ year ∧ year ≤ 99 then 1900 + year else year
  let months := y * 12 + monthIndex
  let ms := (daysFromCivil (Int.fdiv months 12) (Int.emod months 12 + 1) 1 + (day - 1)) * msPerDay
  if ms.natAbs ≤ 8640000000000000 then some ms else none

def getUTCMonthIndex (ms : Int) : Int := (civilFromDays (Int.fdiv ms msPerDay)).2.1 - 1

def getUTCFullYear (ms : Int) : Int := (civilFromDays (Int.fdiv ms msPerDay)).1

/-- `extractBirthDateFromCURP` (`fraudDetection.ts` line 53), including the
century rule and the month-overflow rejection. -/
def extractBirthDateFromCURP (curp : Str) : Option Int :=
  if curp.length < 10 then none
  else
    match parseIntJS ((curp.drop 4).take 2), parseIntJS ((curp.drop 6).take 2),
        parseIntJS ((curp.drop 8).take 2) with
    | some yn, some mo, some dy =>
      let year := if yn ≤ 30 then 2000 + yn else 1900 + yn
      match jsMakeDate year (mo - 1) dy with
      | none => none
      | some ms => if getUTCMonthIndex ms = mo - 1 then some ms else none
    | _, _, _ => none

/-- `extractGenderFromCURP` (line 80). -/
def extractGenderFromCURP (curp : Str) : Option Char :=
  if curp.length < 11 then none
  else
    match curp.get? 10 with
    | some g => if g == 'H' || g == 'M' then some g else none
    | none => none

/-- `extractStateFromCURP` (line 89). -/
def extractStateFromCURP (curp : Str) : Option Str :=
  if curp.length < 13 then none else some ((curp.drop 11).take 2)

def digitsToInt (ds : Str) : Int := (ds.foldl (fun a c => a * 10 + digitVal c) 0 : Nat)

/-- Leftmost match of `(\d{4})-(\d{2})-(\d{2})` anywhere in the string. -/
def matchYMDAt (s : Str) : Option (Int × Int × Int) :=
  if ((s.take 4).length == 4 && (s.take 4).all Char.isDigit &&
      s.get? 4 == some '-' &&
      ((s.drop 5).take 2).length == 2 && ((s.drop 5).take 2).all Char.isDigit &&
      s.get? 7 == some '-' &&
      ((s.drop 8).take 2).length == 2 && ((s.drop 8).take 2).all Char.isDigit) then
    some (digitsToInt (s.take 4), digitsToInt ((s.drop 5).take 2),
      digitsToInt ((s.drop 8).take 2))
  else none

/-- Leftmost match of `(\d{2})/(\d{2})/(\d{4})`. -/
def matchDMYAt (s : Str) : Option (Int × Int × Int) :=
  if ((s.take 2).length == 2 && (s.take 2).all Char.isDigit &&
      s.get? 2 == some '/' &&
      ((s.drop 3).take 2).length == 2 && ((s.drop 3).take 2).all Char.isDigit &&
      s.get? 5 == some '/' &&
      ((s.drop 6).take 4).length == 4 && ((s.drop 6).take 4).all Char.isDigit) then
    some (digitsToInt (s.take 2), digitsToInt ((s.drop 3).take 2),
      digitsToInt ((s.drop 6).take 4))
  else none

/-- Leftmost match of `(\d{4})`. -/
def matchYear4At (s : Str) : Option Int :=
  if (s.take 4).length == 4 && (s.take 4).all Char.isDigit then
    some (digitsToInt (s.take 4))
  else none

/-- Regex search: try the pattern at every start position, leftmost first
(these patterns are fixed-width, so this is JS regex search). -/
def scanFind {α : Type} (f : Str → Option α) : Str → Option α
  | [] => f []
  | c :: tl =>
    match f (c :: tl) with
    | some r => some r
    | none => scanFind f tl

/-- `isExpired` (line 107): try the three formats in order; an invalid
parsed date compares false. -/
def isExpired (now : Int) (dateStr : Str) : Bool :=
  let lt : Option Int → Bool := fun t? =>
    match t? with
    | some t => t < now
    | none => false
  match scanFind matchYMDAt dateStr with
  | some (y, m, d) => lt (jsMakeDate y (m - 1) d)
  | none =>
    match scanFind matchDMYAt dateStr with
    | some (d, m, y) => lt (jsMakeDate y (m - 1) d)
    | none =>
      match scanFind matchYear4At dateStr with
      | some y => lt (jsMakeDate y 11 31)
      | none => false

/-- `isFutureDate` (line 146): the first 4-digit run as the year; year 0 or
no match is falsy. -/
def isFutureDate (now : Int) (dateStr : Str) (allowedFutureYears : Int) : Bool :=
  match scanFind matchYear4At dateStr with
  | none => false
  | some y => if y = 0 then false else decide (y > getUTCFullYear now + allowedFutureYears)

def nameTestPatterns : List Str :=
  (["TEST", "PRUEBA", "EJEMPLO", "DEMO", "SAMPLE", "XXX", "AAAA",
    "JUAN PEREZ", "FULANO", "MENGANO", "ZUTANO",
    "NOMBRE", "NAME", "FIRST", "LAST"]).map String.data

/-- `isNameSuspicious` (line 165): placeholder prefixes, a leading run of
four equal characters (`/^(.)\1{3,}/`), or length below 5. -/
def nameSuspicious (name : Str) : Bool :=
  let n := trimJs (name.map upperChar)
  nameTestPatterns.any (fun p => p.isPrefixOf n) ||
  (match n with
   | a :: b :: c :: d :: _ => a == b && b == c && c == d
   | _ => false) ||
  n.length < 5

/-- JS `new Date(string)` as used on `fechaNacimiento`: the ECMAScript
date-only ISO form `YYYY-MM-DD` at UTC midnight; any other string (in
particular anything containing `*`) is an invalid date. -/
def jsParseDateString (s : Str) : Option Int :=
  match matchYMDAt s with
  | some (y, m, d) =>
    if s.length = 10 ∧ civilFromDays (daysFromCivil y m d) = (y, m, d) then
      some (daysFromCivil y m d * msPerDay)
    else none
  | none => none

inductive Severity where
  | info
  | warning
  | error
  | critical
deriving DecidableEq, Repr

inductive IndicatorType where
  | dataInconsistency
  | invalidFormat
  | expiredDocument
  | futureDate
  | impossibleDate
  | checksumMismatch
  | stateCodeMismatch
  | genderMismatch
  | ageInconsistency
  | nameFormatSuspicious
  | tooManyIllegible
  | crossValidationFailed
deriving DecidableEq, Repr

/-- `FraudIndicator`: the `message`/`details` display strings are
determined by the remaining fields plus the analyzed data and are not
modelled. -/
structure FraudIndicator where
  type : IndicatorType
  severity : Severity
  field : Option String
deriving DecidableEq, Repr

inductive RiskLevel where
  | low
  | medium
  | high
  | critical
deriving DecidableEq, Repr

inductive Recommendation where
  | manualReview
  | requestAdditionalDocs
  | requestClearerImage
  | crossReferenceId
  | reviewFlaggedFields
  | requestUpdatedDocument
deriving DecidableEq, Repr

structure FraudAnalysis where
  isAuthentic : Bool
  riskLevel : RiskLevel
  riskScore : Nat
  fraudIndicators : List FraudIndicator
  recommendations : List Recommendation
deriving DecidableEq, Repr

/-- Rule 1: poor image quality (+15). -/
def qualityBlock (imageQuality : Option Str) : List FraudIndicator × Nat :=
  match imageQuality with
  | some q =>
    if q == "mala".data || q == "ilegible".data then
      ([⟨.tooManyIllegible, .warning, none⟩], 15)
    else ([], 0)
  | none => ([], 0)

/-- Rule 2: three or more illegible fields (+10 per field). -/
def illegibleBlock (ill : List String) : List FraudIndicator × Nat :=
  if 3 ≤ ill.length then ([⟨.tooManyIllegible, .warning, none⟩], 10 * ill.length)
  else ([], 0)

/-- CURP state-code rule (+30). -/
def stateSub (curp : Str) : List FraudIndicator × Nat :=
  match extractStateFromCURP curp with
  | some sc =>
    if !(VALID_STATE_CODES.contains sc) then
      ([⟨.stateCodeMismatch, .error, some "curp"⟩], 30)
    else ([], 0)
  | none => ([], 0)

/-- `sexo.toUpperCase().startsWith('H') || startsWith('M') ? sexo[0] : null` -/
def expectedGenderOf (sexo : Str) : Option Char :=
  let u := sexo.map upperChar
  if ("H".data).isPrefixOf u || ("M".data).isPrefixOf u then u.get? 0 else none

/-- CURP gender rule (+25). -/
def genderSub (curp : Str) (d : ExtractedData) : List FraudIndicator × Nat :=
  match extractGenderFromCURP curp with
  | none => ([], 0)
  | some g =>
    match d.sexo with
    | none => ([], 0)
    | some sx =>
      if sx = [] then ([], 0)
      else
        match expectedGenderOf sx with
        | some eg =>
          if g ≠ eg then ([⟨.genderMismatch, .error, some "curp"⟩], 25) else ([], 0)
        | none => ([], 0)

/-- CURP birth-date rules: future birth (+50), age over 130 (+50), underage
for a license (+30), and the `fechaNacimiento` cross-check (+35).
`age < 0 ⟺ now < birth`; `age > 130 ⟺ now − birth > 130·365.25·86400000 ms`;
`age < 16 ⟺ now − birth < 16·365.25·86400000 ms`; `daysDiff > 1 ⟺
|birth − doc| > 86400000 ms`. -/
def birthSub (now : Int) (docType : Str) (curp : Str) (d : ExtractedData) :
    List FraudIndicator × Nat :=
  match extractBirthDateFromCURP curp with
  | none => ([], 0)
  | some bd =>
    let p1 : List FraudIndicator × Nat :=
      if now < bd then ([⟨.futureDate, .critical, some "curp"⟩], 50)
      else if now - bd > 4102488000000 then
        ([⟨.impossibleDate, .critical, some "curp"⟩], 50)
      else if now - bd < 504921600000 ∧ docType == "licencia".data then
        ([⟨.ageInconsistency, .error, some "curp"⟩], 30)
      else ([], 0)
    let p2 : List FraudIndicator × Nat :=
      match d.fechaNacimiento with
      | none => ([], 0)
      | some f =>
        if f = [] then ([], 0)
        else
          match jsParseDateString f with
          | none => ([], 0)
          | some db =>
            if (bd - db).natAbs > 86400000 then
              ([⟨.dataInconsistency, .error, some "fechaNacimiento"⟩], 35)
            else ([], 0)
    (p1.1 ++ p2.1, p1.2 + p2.2)

/-- Section 2 of `detectFraud` (lines 240–328): the CURP block, skipped
when the CURP is absent, empty or contains `*`. -/
def curpBlock (now : Int) (docType : Str) (d : ExtractedData) :
    List FraudIndicator × Nat :=
  match d.curp with
  | none => ([], 0)
  | some c =>
    if c = [] ∨ c.contains '*' then ([], 0)
    else
      let s := stateSub c
      let g := genderSub c d
      let b := birthSub now docType c d
      (s.1 ++ g.1 ++ b.1, s.2 + g.2 + b.2)

/-- Section 3 (lines 334–352): RFC/CURP cross-validation (+40). -/
def rfcCurpBlock (d : ExtractedData) : List FraudIndicator × Nat :=
  match d.rfc, d.curp with
  | some r, some c =>
    if r ≠ [] ∧ c ≠ [] ∧ ¬r.contains '*' = true ∧ ¬c.contains '*' = true then
      if r.length = 13 ∧ c.length = 18 then
        if r.take 10 ≠ c.take 10 then
          ([⟨.crossValidationFailed, .error, some "rfc"⟩], 40)
        else ([], 0)
      else ([], 0)
    else ([], 0)
  | _, _ => ([], 0)

def truthy (o : Option Str) : Option Str :=
  match o with
  | some v => if v = [] then none else some v
  | none => none

/-- `extractedData.vigenciaFin || extractedData.vigencia` -/
def expiryValue (d : ExtractedData) : Option Str :=
  (truthy d.vigenciaFin).orElse (fun _ => truthy d.vigencia)

/-- Section 4 (lines 358–382): expiry rules (+20 expired, +25 expiry more
than 20 years out). -/
def expiryBlock (now : Int) (d : ExtractedData) : List FraudIndicator × Nat :=
  match expiryValue d with
  | none => ([], 0)
  | some v =>
    if v.contains '*' then ([], 0)
    else
      let p1 : List FraudIndicator × Nat :=
        if isExpired now v then ([⟨.expiredDocument, .warning, some "vigencia"⟩], 20)
        else ([], 0)
      let p2 : List FraudIndicator × Nat :=
        if isFutureDate now v 20 then ([⟨.futureDate, .error, some "vigencia"⟩], 25)
        else ([], 0)
      (p1.1 ++ p2.1, p1.2 + p2.2)

/-- Section 5 (lines 388–400): suspicious name (+20). -/
def nameBlock (d : ExtractedData) : List FraudIndicator × Nat :=
  match d.nombre with
  | none => ([], 0)
  | some v =>
    if v = [] ∨ v.contains '*' then ([], 0)
    else if nameSuspicious v then
      ([⟨.nameFormatSuspicious, .warning, some "nombre"⟩], 20)
    else ([], 0)

def isVehicleDoc (docType : Str) : Bool :=
  let lt := docType.map lowerChar
  containsSeq "circulacion".data lt || containsSeq "poliza".data lt ||
  containsSeq "vehiculo".data lt

/-- VIN length (+25) and forbidden-letter (+15, case-insensitive) rules. -/
def vinSub (d : ExtractedData) : List FraudIndicator × Nat :=
  match d.vin with
  | none => ([], 0)
  | some v =>
    if v = [] ∨ v.contains '*' then ([], 0)
    else
      let p1 : List FraudIndicator × Nat :=
        if v.length ≠ 17 then ([⟨.invalidFormat, .error, some "vin"⟩], 25) else ([], 0)
      let p2 : List FraudIndicator × Nat :=
        if v.any (fun c => "IOQioq".data.contains c) then
          ([⟨.invalidFormat, .warning, some "vin"⟩], 15)
        else ([], 0)
      (p1.1 ++ p2.1, p1.2 + p2.2)

/-- Impossible vehicle year rule (+30); an unparseable year never
triggers. -/
def yearSub (now : Int) (d : ExtractedData) : List FraudIndicator × Nat :=
  match d.anio with
  | none => ([], 0)
  | some v =>
    if v = [] ∨ v.contains '*' then ([], 0)
    else
      match parseIntJS v with
      | none => ([], 0)
      | some y =>
        if y < 1900 ∨ y > getUTCFullYear now + 1 then
          ([⟨.impossibleDate, .error, some "anio"⟩], 30)
        else ([], 0)

/-- Section 6 (lines 406–454): vehicle-specific checks. -/
def vehicleBlock (now : Int) (docType : Str) (d : ExtractedData) :
    List FraudIndicator × Nat :=
  if isVehicleDoc docType then
    let p1 := vinSub d
    let p2 := yearSub now d
    (p1.1 ++ p2.1, p1.2 + p2.2)
  else ([], 0)

/-- The final risk-level mapping (lines 462–471). -/
def levelOf (s : Nat) : RiskLevel :=
  if 70 ≤ s then .critical else if 45 ≤ s then .high
  else if 20 ≤ s then .medium else .low

/-- `detectFraud` (`fraudDetection.ts` line 203).  The sequential
`riskScore +=` accumulation and `indicators.push` calls of the source are
the block sums and concatenations, in source order, clamped once at the
end. -/
def detectFraud (now : Int) (d : ExtractedData) (documentType : Str)
    (illegibleFields : List String) (imageQuality : Option Str) : FraudAnalysis :=
  let b1 := qualityBlock imageQuality
  let b2 := illegibleBlock illegibleFields
  let b3 := curpBlock now documentType d
  let b4 := rfcCurpBlock d
  let b5 := expiryBlock now d
  let b6 := nameBlock d
  let b7 := vehicleBlock now documentType d
  let indicators := b1.1 ++ b2.1 ++ b3.1 ++ b4.1 ++ b5.1 ++ b6.1 ++ b7.1
  let score := min 100 (b1.2 + b2.2 + b3.2 + b4.2 + b5.2 + b6.2 + b7.2)
  let level := levelOf score
  let recs :=
    (match level with
     | .critical => [Recommendation.manualReview, Recommendation.requestAdditionalDocs]
     | .high => [Recommendation.requestClearerImage, Recommendation.crossReferenceId]
     | .medium => [Recommendation.reviewFlaggedFields]
     | .low => []) ++
    (if indicators.any (fun i => i.type == .expiredDocument) then
      [Recommendation.requestUpdatedDocument]
    else [])
  ⟨decide (level ≠ .critical ∧ level ≠ .high), level, score, indicators, recs⟩

/-! ## Specification-side definitions

Transcriptions of formulas as the specification words them, for comparison
with the code-side definitions above, plus decompositions used only to
state and prove theorems. -/

/-- Index of a character in the CURP alphabet, as the spec words it
("map each of the first 17 characters through the ordered alphabet"). -/
def dictIdx (c : Char) : Nat := (curpDictionary.findIdx? (fun x => x == c)).getD 0

/-- "multiply the index at position i by weight (18 − i), sum", starting at
position `i`. -/
def curpSpecSumFrom (i : Nat) : Str → Nat
  | [] => 0
  | c :: rest => dictIdx c * (18 - i) + curpSpecSumFrom (i + 1) rest

def curpSpecSum (s : Str) : Nat := curpSpecSumFrom 0 s

/-- The claim's verification digit: `(10 − sum mod 10) mod 10`. -/
def curpClaimDigit (s : Str) : Char := digitChar ((10 - curpSpecSum s % 10) % 10)

/-- The claim's CLABE check digit: weights applied to the first 17 digits,
`(d×w) mod 10` accumulated, then `(10 − sum mod 10) mod 10`. -/
def clabeSpecDigit (n : Str) : Nat :=
  (10 - (((n.take 17).zip clabeWeights).map (fun p => digitVal p.1 * p.2 % 10)).sum % 10) % 10

/-- The base string the NSS validator checksums after length repair. -/
def nssBase (nd : Str) : Str := if nd.length = 10 then '0' :: nd else nd

/-- Correction-log contribution of one validated field of the
post-processor. -/
def hvCorrs (name : String) (validator : Str → FieldValidationResult)
    (v? : Option Str) : List PostCorrection :=
  match v? with
  | none => []
  | some v =>
    if v = [] then []
    else if isIllegible v then []
    else if (validator v).corrected ≠ v then [⟨name, v, (validator v).corrected⟩]
    else []

/-- Confidence contribution of one validated field, as a list (empty when
the validator did not run). -/
def confContribution (validator : Str → FieldValidationResult) (v? : Option Str) :
    List ℚ :=
  match v? with
  | none => []
  | some v =>
    if v = [] then []
    else if isIllegible v then []
    else [(validator v).confidence]

/-- Illegible-log contribution of one field. -/
def hvIll (name : String) (v? : Option Str) : List String :=
  match v? with
  | none => []
  | some v => if v = [] then [] else if isIllegible v then [name] else []

/-- Output-map update of one validated field. -/
def hvOut (set : ExtractedData → Str → ExtractedData)
    (validator : Str → FieldValidationResult) (v? : Option Str)
    (o : ExtractedData) : ExtractedData :=
  match v? with
  | none => o
  | some v =>
    if v = [] then o
    else if isIllegible v then set o v
    else set o (validator v).corrected

/-- Output-map update of one name-like field. -/
def hnOut (set : ExtractedData → Str → ExtractedData) (fmt : Str → Str)
    (v? : Option Str) (o : ExtractedData) : ExtractedData :=
  match v? with
  | none => o
  | some v =>
    if v = [] then o
    else if isIllegible v then set o v
    else set o (fmt v)

/-- The post-processor's correction log, as the concatenation of per-field
contributions. -/
def ppCorrsList (d : ExtractedData) : List PostCorrection :=
  hvCorrs "curp" validateAndFixCURP d.curp ++
  hvCorrs "rfc" validateAndFixRFC d.rfc ++
  hvCorrs "clabe" validateAndFixCLABE d.clabe ++
  hvCorrs "placas" validateAndFixPlacas d.placas ++
  hvCorrs "vin" validateAndFixVIN d.vin ++
  hvCorrs "nss" validateAndFixNSS d.nss

/-- The post-processor's illegible-field log, as the concatenation of
per-field contributions. -/
def ppIllList (d : ExtractedData) : List String :=
  hvIll "curp" d.curp ++ hvIll "rfc" d.rfc ++ hvIll "clabe" d.clabe ++
  hvIll "placas" d.placas ++ hvIll "vin" d.vin ++ hvIll "nss" d.nss ++
  hvIll "nombre" d.nombre ++ hvIll "razonSocial" d.razonSocial

/-- The post-processor's output map, as the per-field updates applied in
source order. -/
def ppOut (d : ExtractedData) : ExtractedData :=
  hnOut setRazonSocial razonFormat d.razonSocial
    (hnOut setNombre nombreFormat d.nombre
      (hvOut setNss validateAndFixNSS d.nss
        (hvOut setVin validateAndFixVIN d.vin
          (hvOut setPlacas validateAndFixPlacas d.placas
            (hvOut setClabe validateAndFixCLABE d.clabe
              (hvOut setRfc validateAndFixRFC d.rfc
                (hvOut setCurp validateAndFixCURP d.curp d)))))))

/-- The confidences of the validators that ran, in source order. -/
def ranConfs (d : ExtractedData) : List ℚ :=
  confContribution validateAndFixCURP d.curp ++
  confContribution validateAndFixRFC d.rfc ++
  confContribution validateAndFixCLABE d.clabe ++
  confContribution validateAndFixPlacas d.placas ++
  confContribution validateAndFixVIN d.vin ++
  confContribution validateAndFixNSS d.nss

/-! ## Concrete data for witnesses and counterexamples -/

/-- The raw OCR CURP of the specification's checksum test. -/
def pegjRaw : Str := "PEGJ85O1O1HDFRRL09".data

/-- Its corrected form. -/
def pegjFixed : Str := "PEGJ850101HDFRRL04".data

/-- A fixed clock for fraud-analysis examples: 2023-11-14T22:13:20Z. -/
def now0 : Int := 1700000000000

/-- Invalid state code `XX` and declared gender `M` against CURP gender
`H`, nothing else wrong. -/
def fraudTwoRuleDoc : ExtractedData :=
  { curp := some "AAAA400101HXXAAA01".data, sexo := some "M".data }

/-- The same two problems plus an RFC whose base differs from the CURP
base, pushing the score past the critical threshold. -/
def fraudThreeRuleDoc : ExtractedData :=
  { curp := some "AAAA400101HXXAAA01".data, sexo := some "M".data,
    rfc := some "BBBB400101CCC".data }

/-- A clean CURP but a declared-gender value containing `*`. -/
def starSexoDoc : ExtractedData :=
  { curp := some "AAAA400101HDFAAA01".data, sexo := some ['M', '*'] }

/-- A field map whose every fraud-relevant value contains `*`. -/
def allStarDoc : ExtractedData :=
  { curp := some "***".data, vin := some "1*".data, nombre := some "*".data,
    anio := some "2*".data, vigenciaFin := some "202*".data }

/-- A field map with only a license plate: no checksum-bearing field. -/
def placasOnlyDoc : ExtractedData := { placas := some "ABC1234".data }

/-- A field map with an illegible CURP and a valid CLABE. -/
def illegibleCurpDoc : ExtractedData :=
  { curp := some "PEGJ85*1*1HDFRRL09".data, clabe := some "000000000000000000".data }

/-! ## General lemmas -/

theorem normalizeOCRString_eq_core (s : Str) (ctx : OCRContext) :
    normalizeOCRString s ctx = normCore s ctx := by
  by_cases h : s = []
  · subst h; cases ctx <;> rfl
  · simp [normalizeOCRString, h]

theorem lookup_mem_pairs {m : List (Char × Char)} {c v : Char}
    (h : m.lookup c = some v) : (c, v) ∈ m := by
  induction m with
  | nil => simp [List.lookup] at h
  | cons p rest ih =>
    obtain ⟨k, w⟩ := p
    rw [List.lookup] at h
    by_cases hk : c == k
    · simp only [hk] at h
      obtain rfl : w = v := by simpa using h
      simp [show c = k from by simpa using hk]
    · simp only [Bool.not_eq_true] at hk
      simp only [hk] at h
      exact List.mem_cons_of_mem _ (ih h)

/-- A character outside the key set of a finite substitution is fixed. -/
theorem applyMap_id_of_not_key {m : List (Char × Char)} {p : Char → Bool}
    (hm : ∀ q ∈ m, p q.1 = false) {c : Char} (hc : p c = true) :
    applyMap m c = c := by
  unfold applyMap
  cases h : m.lookup c with
  | none => rfl
  | some v =>
    have := hm _ (lookup_mem_pairs h)
    simp only at this
    rw [this] at hc
    exact absurd hc (by simp)

/-- A predicate holding on a character and on every value of a finite
substitution holds on the image. -/
theorem applyMap_pred {m : List (Char × Char)} {p : Char → Bool}
    (hm : ∀ q ∈ m, p q.2 = true) {c : Char} (hc : p c = true) :
    p (applyMap m c) = true := by
  unfold applyMap
  cases h : m.lookup c with
  | none => exact hc
  | some v => exact hm _ (lookup_mem_pairs h)

/-- A finite substitution none of whose values is a key is idempotent. -/
theorem applyMap_idem {m : List (Char × Char)}
    (hm : ∀ q ∈ m, m.lookup q.2 = none) (c : Char) :
    applyMap m (applyMap m c) = applyMap m c := by
  unfold applyMap
  cases h : m.lookup c with
  | none => simp [h]
  | some v => simp [hm _ (lookup_mem_pairs h)]

theorem contains_eq_false_of {l : List Char} {p : Char → Bool}
    (hl : ∀ a ∈ l, p a = false) {c : Char} (hc : p c = true) :
    l.contains c = false := by
  induction l with
  | nil => rfl
  | cons a tl ih =>
    have ha := hl a (List.mem_cons_self a tl)
    have htl := ih (fun x hx => hl x (List.mem_cons_of_mem a hx))
    have hca : (c == a) = false := by
      by_contra hcc
      simp only [Bool.not_eq_false, beq_iff_eq] at hcc
      subst hcc
      rw [ha] at hc
      exact absurd hc (by simp)
    show (a :: tl).elem c = false
    rw [List.elem_cons, hca]
    exact htl

theorem map_id_of {l : Str} {f : Char → Char} (h : ∀ c ∈ l, f c = c) :
    l.map f = l := by
  induction l with
  | nil => rfl
  | cons c tl ih =>
    simp only [List.map_cons, h c (by simp)]
    rw [ih (fun x hx => h x (by simp [hx]))]

theorem filter_true_of {l : Str} {p : Char → Bool} (h : ∀ c ∈ l, p c = true) :
    l.filter p = l := by
  induction l with
  | nil => rfl
  | cons c tl ih =>
    rw [List.filter_cons_of_pos (h c (by simp))]
    rw [ih (fun x hx => h x (by simp [hx]))]

theorem get?_eq_head_drop (s : Str) (i : Nat) : s.get? i = (s.drop i).head? := by
  induction s generalizing i with
  | nil => simp
  | cons c tl ih =>
    cases i with
    | zero => simp
    | succ j => simp [ih j]

theorem drop_succ_eq_tail_drop (s : Str) (i : Nat) :
    s.drop (i + 1) = (s.drop i).tail := by
  induction s generalizing i with
  | nil => simp
  | cons c tl ih =>
    cases i with
    | zero => simp
    | succ j => simp

/-- The last element of a list of length `n + 1`. -/
theorem drop_of_length_succ {l : Str} {n : Nat} {a : Char}
    (hlen : l.length = n + 1) (hget : l.get? n = some a) : l.drop n = [a] := by
  have h1 : (l.drop n).length = 1 := by
    rw [List.length_drop, hlen]; omega
  cases hd : l.drop n with
  | nil => rw [hd] at h1; simp at h1
  | cons x tl =>
    cases tl with
    | nil =>
      rw [get?_eq_head_drop, hd] at hget
      simpa using hget
    | cons y tl2 => rw [hd] at h1; simp at h1

theorem eq_take_append_of_get? {l : Str} {n : Nat} {a : Char}
    (hlen : l.length = n + 1) (hget : l.get? n = some a) :
    l = l.take n ++ [a] := by
  conv_lhs => rw [← List.take_append_drop n l]
  rw [drop_of_length_succ hlen hget]

/-! ## Claim C2: numeric OCR normalization

The source upper-cases before the substitution chain, so the lowercase
rules `b→6` and `g,q→9` never fire: `b` becomes `B` and then `8`, `g`
becomes `G` and then `6`, `q` becomes `Q` and then `0`. -/

/-- C2 (counterexample): the claim says `normalizeOCRString "b" numeric`
is `"6"`; it is `"8"`, because upper-casing runs first. -/
theorem c2_counterexample :
    normalizeOCRString ['b'] .numeric = ['8'] ∧ (['8'] : Str) ≠ ['6'] := by
  constructor
  · rfl
  · decide

/-- C2 (amended): with a numeric context, normalization processes the
input character-wise (it distributes over concatenation), strips noise and
whitespace, and maps each upper-cased glyph through the digit table; on
the glyphs the claim lists, the results after upper-casing are
`O,o,Q,D,q→0`, `I,i,l,L,|,!→1`, `Z,z→2`, `S,s,$→5`, `G,g→6`, `B,b→8` —
`b` yields `8` (not `6`), `g` yields `6` and `q` yields `0` (not `9`). -/
theorem c2_amended :
    (∀ (s t : Str) (ctx : OCRContext),
      normalizeOCRString (s ++ t) ctx =
        normalizeOCRString s ctx ++ normalizeOCRString t ctx) ∧
    (∀ c ∈ (['O', 'o', 'Q', 'D', 'q'] : Str), normalizeOCRString [c] .numeric = ['0']) ∧
    (∀ c ∈ (['I', 'i', 'l', 'L', '|', '!'] : Str), normalizeOCRString [c] .numeric = ['1']) ∧
    (∀ c ∈ (['Z', 'z'] : Str), normalizeOCRString [c] .numeric = ['2']) ∧
    (∀ c ∈ (['S', 's', '$'] : Str), normalizeOCRString [c] .numeric = ['5']) ∧
    (∀ c ∈ (['G', 'g', 'b'] : Str), normalizeOCRString [c] .numeric = [if c = 'b' then '8' else '6']) ∧
    normalizeOCRString ['B'] .numeric = ['8'] ∧
    (∀ c ∈ jsWhitespace ++ noiseChars, normalizeOCRString [c] .numeric = []) ∧
    normalizeOCRString " o-l_z.s,g:q;B".data .numeric = "0125608".data := by
  refine ⟨?_, by decide, by decide, by decide, by decide, by decide, by decide, by decide, by decide⟩
  intro s t ctx
  rw [normalizeOCRString_eq_core, normalizeOCRString_eq_core, normalizeOCRString_eq_core]
  unfold normCore
  cases ctx <;> simp [List.filter_append]

/-- C2 witness: the amended theorem applied at concrete glyphs. -/
theorem c2_amended_witness :
    normalizeOCRString ("b".data ++ "g".data) .numeric = ['8', '6'] := by
  have h := c2_amended
  rw [h.1 "b".data "g".data .numeric]
  rw [show ("b".data : Str) = ['b'] from rfl, show ("g".data : Str) = ['g'] from rfl]
  rw [h.2.2.2.2.2.1 'g' (by decide), h.2.2.2.2.2.1 'b' (by decide)]
  decide

/-! ## Claim C1: CURP verification-digit recomputation -/

theorem curpSumAux_eq (t : Str) : ∀ (s : Str) (i acc : Nat), s.drop i = t →
    (∀ c ∈ t, (curpDictionary.findIdx? (fun x => x == c)).isSome = true) →
    curpSumAux s i t.length acc = some (acc + curpSpecSumFrom i t) := by
  induction t with
  | nil =>
    intro s i acc _ _
    simp [curpSumAux, curpSpecSumFrom]
  | cons c t' ih =>
    intro s i acc hdrop hmem
    have hget : s.get? i = some c := by
      rw [get?_eq_head_drop, hdrop]; rfl
    obtain ⟨idx, hidx⟩ :=
      Option.isSome_iff_exists.mp (hmem c (List.mem_cons_self c t'))
    show curpSumAux s i (t'.length + 1) acc = _
    rw [curpSumAux]
    simp only [hget, hidx]
    rw [ih s (i + 1) (acc + idx * (18 - i))
      (by rw [drop_succ_eq_tail_drop, hdrop]; rfl)
      (fun x hx => hmem x (List.mem_cons_of_mem c hx))]
    have hd : dictIdx c = idx := by rw [dictIdx, hidx]; rfl
    rw [curpSpecSumFrom, hd]
    congr 1
    omega

theorem calcCURP_of_sum {s : Str} {n : Nat} (h : curpSumAux s 0 17 0 = some n) :
    calcCURPVerificationDigit s = [digitChar ((10 - n % 10) % 10)] := by
  have hlt : n % 10 < 10 := Nat.mod_lt _ (by omega)
  simp only [calcCURPVerificationDigit, h]
  split_ifs with h10
  · have h0 : n % 10 = 0 := by omega
    rw [h0]
    decide
  · have : (10 - n % 10) % 10 = 10 - n % 10 := Nat.mod_eq_of_lt (by omega)
    rw [this]

theorem calc_eq_claimDigit {s : Str} (hlen : s.length = 17)
    (hmem : ∀ c ∈ s, (curpDictionary.findIdx? (fun x => x == c)).isSome = true) :
    calcCURPVerificationDigit s = [curpClaimDigit s] := by
  have h := curpSumAux_eq s s 0 0 (by simp) hmem
  rw [hlen] at h
  have hspec : (0 : Nat) + curpSpecSumFrom 0 s = curpSpecSum s := by
    rw [curpSpecSum]; omega
  rw [hspec] at h
  exact calcCURP_of_sum h

/-- C1: for every CURP candidate whose repaired, position-fixed form has 18
characters all (in the first 17) drawn from the CURP alphabet,
`validateAndFixCURP` overwrites the 18th character with the digit of the
claim's weighted-index formula and, when the character changed, logs a
verification-digit correction; and the worked example
`PEGJ85O1O1HDFRRL09 → PEGJ850101HDFRRL04` holds, correction entry
included. -/
theorem c1_curp_checksum :
    (∀ curp : Str,
      (curpPreChecksum curp).1.length = 18 →
      (∀ c ∈ (curpPreChecksum curp).1.take 17,
        (curpDictionary.findIdx? (fun x => x == c)).isSome = true) →
      (validateAndFixCURP curp).corrected =
        (curpPreChecksum curp).1.take 17 ++
          [curpClaimDigit ((curpPreChecksum curp).1.take 17)] ∧
      ((curpPreChecksum curp).1.get? 17 ≠
          some (curpClaimDigit ((curpPreChecksum curp).1.take 17)) →
        Correction.verificationDigit ((curpPreChecksum curp).1.get? 17)
            [curpClaimDigit ((curpPreChecksum curp).1.take 17)] ∈
          (validateAndFixCURP curp).corrections)) ∧
    (validateAndFixCURP pegjRaw).corrected = pegjFixed ∧
    Correction.verificationDigit (some '9') ['4'] ∈
      (validateAndFixCURP pegjRaw).corrections := by
  refine ⟨?_, by decide, by decide⟩
  intro curp hlen hmem
  have hne : curp ≠ [] := by
    intro h
    subst h
    have h0 : (curpPreChecksum ([] : Str)).1.length = 0 := by decide
    rw [h0] at hlen
    exact absurd hlen (by decide)
  have htlen : ((curpPreChecksum curp).1.take 17).length = 17 := by
    rw [List.length_take, hlen]
    omega
  have hcalc := calc_eq_claimDigit htlen hmem
  cases hc17 : (curpPreChecksum curp).1.get? 17 with
  | none =>
    rw [List.get?_eq_none] at hc17
    omega
  | some c17 =>
    unfold validateAndFixCURP
    rw [if_neg hne]
    unfold curpFinal
    simp only [hcalc, hc17, Option.map_some']
    by_cases hmis : c17 = curpClaimDigit ((curpPreChecksum curp).1.take 17)
    · have hcond :
          ¬(some [c17] ≠
            some [curpClaimDigit ((curpPreChecksum curp).1.take 17)]) := by
        simp [hmis]
      rw [if_neg hcond, if_neg hcond]
      constructor
      · have := eq_take_append_of_get? (l := (curpPreChecksum curp).1)
          (n := 17) (a := c17) (by omega) hc17
        rw [hmis] at this
        simpa using this
      · intro hcontra
        rw [hmis] at hcontra
        exact absurd rfl hcontra
    · have hcond :
          some [c17] ≠
            some [curpClaimDigit ((curpPreChecksum curp).1.take 17)] := by
        simp [hmis]
      rw [if_pos hcond, if_pos hcond]
      exact ⟨rfl, fun _ => by simp⟩

/-- C1 witness: the general clause of the theorem applied at the worked
example. -/
theorem c1_curp_checksum_witness :
    (validateAndFixCURP pegjRaw).corrected =
      (curpPreChecksum pegjRaw).1.take 17 ++
        [curpClaimDigit ((curpPreChecksum pegjRaw).1.take 17)] :=
  (c1_curp_checksum.1 pegjRaw (by decide) (by decide)).1

/-! ## Claim C3: CLABE checksum -/

theorem mem_onlyDigits {l : Str} {c : Char} (h : c ∈ onlyDigits l) :
    Char.isDigit c = true := (List.mem_filter.mp h).2

theorem clabeNormalized_digits (clabe : Str) :
    ∀ c ∈ (clabeNormalized clabe).1, Char.isDigit c = true := by
  intro c hc
  simp only [clabeNormalized] at hc
  split_ifs at hc
  · rcases List.mem_cons.mp hc with h | h
    · subst h; decide
    · exact mem_onlyDigits h
  · exact mem_onlyDigits (List.take_subset _ _ hc)
  · exact mem_onlyDigits hc

theorem foldl_add_eq_sum {α : Type} (f : α → Nat) :
    ∀ (l : List α) (a : Nat), l.foldl (fun s p => s + f p) a = a + (l.map f).sum := by
  intro l
  induction l with
  | nil => intro a; simp
  | cons x tl ih =>
    intro a
    simp only [List.foldl_cons, List.map_cons, List.sum_cons]
    rw [ih]
    omega

theorem clabeExpected_eq {n : Str} (h : 17 ≤ n.length) :
    clabeExpected n = some (clabeSpecDigit n) := by
  unfold clabeExpected clabeSpecDigit
  rw [if_neg (by omega)]
  simp only [foldl_add_eq_sum]
  rw [Nat.zero_add]

/-- The code's checksum comparison holds exactly when the string has at
least 18 digits and the claim's formula digit equals the 18th digit. -/
theorem clabeChecksumOK_iff (n : Str) :
    clabeChecksumOK n = true ↔
      (18 ≤ n.length ∧ clabeSpecDigit n = digitVal (n.getD 17 ' ')) := by
  unfold clabeChecksumOK clabeActual
  by_cases h17 : 17 ≤ n.length
  · rw [clabeExpected_eq h17]
    cases hg : n.get? 17 with
    | none =>
      rw [List.get?_eq_none] at hg
      simp only [Option.map_none']
      constructor
      · intro h; exact absurd h (by simp)
      · intro h; omega
    | some a =>
      have h18 : 18 ≤ n.length := by
        by_contra hlt
        rw [show n.get? 17 = none from List.get?_eq_none.mpr (by omega)] at hg
        exact absurd hg (by simp)
      have hgd : n[17]?.getD ' ' = a := by
        rw [← List.get?_eq_getElem?, hg]; rfl
      simp [hgd, h18, beq_iff_eq]
  · have he : clabeExpected n = none := by
      unfold clabeExpected
      rw [if_pos (by omega)]
    rw [he]
    constructor
    · intro h; exact absurd h (by simp)
    · intro h; omega

/-- C3: for every nonempty bank-routing input, validity is exactly
"normalized length 18 and checksum match", confidence is 0.95 on a match
and 0.6 otherwise, the checksum match is the claim's weighted formula
compared against the 18th digit, and the all-zero CLABE is accepted with
confidence 0.95. -/
theorem c3_clabe_checksum :
    (∀ clabe : Str, clabe ≠ [] →
      ((validateAndFixCLABE clabe).valid =
        (decide ((clabeNormalized clabe).1.length = 18) &&
          clabeChecksumOK (clabeNormalized clabe).1)) ∧
      ((validateAndFixCLABE clabe).confidence =
        if clabeChecksumOK (clabeNormalized clabe).1 then (19/20 : ℚ) else 3/5) ∧
      (clabeChecksumOK (clabeNormalized clabe).1 = true ↔
        (18 ≤ (clabeNormalized clabe).1.length ∧
          clabeSpecDigit (clabeNormalized clabe).1 =
            digitVal ((clabeNormalized clabe).1.getD 17 ' ')))) ∧
    validateAndFixCLABE ("000000000000000000".data) =
      ⟨true, "000000000000000000".data, 19/20, []⟩ := by
  constructor
  · intro clabe h
    refine ⟨?_, ?_, clabeChecksumOK_iff _⟩
    · unfold validateAndFixCLABE
      rw [if_neg h]
    · unfold validateAndFixCLABE
      rw [if_neg h]
  · rfl

/-- C3 witness: the general clauses at the all-zero CLABE. -/
theorem c3_clabe_checksum_witness :
    (validateAndFixCLABE ("000000000000000000".data)).valid =
      (decide ((clabeNormalized ("000000000000000000".data)).1.length = 18) &&
        clabeChecksumOK (clabeNormalized ("000000000000000000".data)).1) :=
  (c3_clabe_checksum.1 ("000000000000000000".data) (by decide)).1

/-! ## Claim C4: NSS length dispatch -/

theorem nssVerifier_lt (l : Str) : nssVerifier l < 10 :=
  Nat.mod_lt _ (by omega)

theorem isDigit_digitChar {k : Nat} (h : k < 10) : (digitChar k).isDigit = true := by
  interval_cases k <;> decide

theorem nssCheck_spec {n : Str} (hlen : n.length = 11)
    (hdig : ∀ c ∈ n, Char.isDigit c = true) (corrs : List Correction) :
    (nssCheck n corrs).corrected = n.take 10 ++ [digitChar (nssVerifier n)] ∧
    (nssCheck n corrs).valid = true := by
  cases hg : n.get? 10 with
  | none =>
    rw [List.get?_eq_none] at hg
    omega
  | some a =>
    have htakelen : (n.take 10).length = 10 := by
      rw [List.length_take]; omega
    have hdigE : (digitChar (nssVerifier n)).isDigit = true :=
      isDigit_digitChar (nssVerifier_lt n)
    have h1 : (n.take 10).all Char.isDigit = true := by
      rw [List.all_eq_true]
      exact fun c hc => hdig c (List.take_subset _ _ hc)
    by_cases heq : a = digitChar (nssVerifier n)
    · have hcond : ¬(n.get? 10 ≠ some (digitChar (nssVerifier n))) := by
        rw [hg, heq]
        simp
      have hn : n = n.take 10 ++ [digitChar (nssVerifier n)] := by
        have h2 := eq_take_append_of_get? (l := n) (n := 10) (a := a) (by omega) hg
        rw [heq] at h2
        exact h2
      simp only [nssCheck]
      rw [if_neg hcond]
      refine ⟨hn, ?_⟩
      show (n.length == 11 && n.all Char.isDigit) = true
      rw [hlen]
      simp [List.all_eq_true]
      exact fun c hc => hdig c hc
    · have hcond : n.get? 10 ≠ some (digitChar (nssVerifier n)) := by
        rw [hg]
        simp [heq]
      have hlen2 : (n.take 10 ++ [digitChar (nssVerifier n)]).length = 11 := by
        rw [List.length_append, htakelen]
        rfl
      simp only [nssCheck]
      rw [if_pos hcond]
      refine ⟨rfl, ?_⟩
      show ((n.take 10 ++ [digitChar (nssVerifier n)]).length == 11 &&
        (n.take 10 ++ [digitChar (nssVerifier n)]).all Char.isDigit) = true
      rw [hlen2, List.all_append]
      simp [h1, hdigE]

/-- C4: after numeric normalization and digit stripping, a 10-digit value
is zero-prepended and a 12-digit value truncated to 11 before the Luhn
check (whose digit overwrites position 10, making the result valid); every
other length returns immediately — invalid, confidence 0.3, the value and
its check digit untouched — and the validator is a total function (it
never throws). -/
theorem c4_nss_length_dispatch :
    ∀ nss : Str, nss ≠ [] →
      (let nd := onlyDigits (normalizeOCRString nss .numeric)
      ((nd.length ≠ 10 ∧ nd.length ≠ 11 ∧ nd.length ≠ 12) →
        validateAndFixNSS nss =
          ⟨false, nd, 3/10, [Correction.invalidLength nd.length]⟩) ∧
      ((nd.length = 10 ∨ nd.length = 11 ∨ nd.length = 12) →
        (validateAndFixNSS nss).corrected =
          (nssBase nd).take 10 ++ [digitChar (nssVerifier (nssBase nd))] ∧
        (validateAndFixNSS nss).valid = true)) := by
  intro nss h
  intro nd
  have hnd : nd = onlyDigits (normalizeOCRString nss .numeric) := rfl
  have hdig : ∀ c ∈ nd, Char.isDigit c = true := fun c hc => mem_onlyDigits hc
  constructor
  · intro ⟨h10, h11, h12⟩
    unfold validateAndFixNSS
    rw [if_neg h, ← hnd]
    rw [if_neg h11, if_neg h10, if_neg h12]
  · intro hcase
    unfold validateAndFixNSS
    rw [if_neg h, ← hnd]
    rcases hcase with h10 | h11 | h12
    · rw [if_neg (by omega), if_pos h10]
      have hbase : nssBase nd = '0' :: nd := by rw [nssBase, if_pos h10]
      rw [hbase]
      exact nssCheck_spec (by simp [h10]) (by
        intro c hc
        rcases List.mem_cons.mp hc with h | h
        · subst h; decide
        · exact hdig c h) _
    · rw [if_pos h11]
      have hbase : nssBase nd = nd := by rw [nssBase, if_neg (by omega)]
      rw [hbase]
      exact nssCheck_spec h11 hdig _
    · rw [if_neg (by omega), if_neg (by omega), if_pos h12]
      have hbase : nssBase nd = nd := by rw [nssBase, if_neg (by omega)]
      have hspec := nssCheck_spec (n := nd.take 11)
        (by rw [List.length_take]; omega)
        (fun c hc => hdig c (List.take_subset _ _ hc))
        [Correction.removedExtraDigit]
      have htt : (nd.take 11).take 10 = nd.take 10 := by
        rw [List.take_take]
        norm_num
      have hv : nssVerifier (nd.take 11) = nssVerifier nd := by
        unfold nssVerifier
        rw [htt]
      rw [hbase]
      rw [htt, hv] at hspec
      exact hspec

/-- C4 witness: a 9-digit candidate takes the immediate-failure branch. -/
theorem c4_nss_length_dispatch_witness :
    validateAndFixNSS ("123456789".data) =
      ⟨false, "123456789".data, 3/10, [Correction.invalidLength 9]⟩ := by
  have h := (c4_nss_length_dispatch ("123456789".data) (by decide)).1
    (by refine ⟨?_, ?_, ?_⟩ <;> decide)
  rw [h]
  rfl

/-! ## Claim C7: risk score range and level mapping -/

theorem levelOf_iff (s : Nat) :
    (levelOf s = .critical ↔ 70 ≤ s) ∧ (levelOf s = .high ↔ 45 ≤ s ∧ s < 70) ∧
    (levelOf s = .medium ↔ 20 ≤ s ∧ s < 45) ∧ (levelOf s = .low ↔ s < 20) := by
  unfold levelOf
  split_ifs with h1 h2 h3 <;> refine ⟨?_, ?_, ?_, ?_⟩ <;>
    simp_all <;> omega

/-- C7: for every input, the risk score is clamped to `[0, 100]`,
`riskLevel` is exactly the banded mapping of the score, and `isAuthentic`
holds exactly when the level is neither high nor critical. -/
theorem c7_risk_level_mapping :
    ∀ (now : Int) (d : ExtractedData) (doc : Str) (ill : List String)
      (q : Option Str),
      (detectFraud now d doc ill q).riskScore ≤ 100 ∧
      ((detectFraud now d doc ill q).riskLevel = .critical ↔
        70 ≤ (detectFraud now d doc ill q).riskScore) ∧
      ((detectFraud now d doc ill q).riskLevel = .high ↔
        (45 ≤ (detectFraud now d doc ill q).riskScore ∧
          (detectFraud now d doc ill q).riskScore < 70)) ∧
      ((detectFraud now d doc ill q).riskLevel = .medium ↔
        (20 ≤ (detectFraud now d doc ill q).riskScore ∧
          (detectFraud now d doc ill q).riskScore < 45)) ∧
      ((detectFraud now d doc ill q).riskLevel = .low ↔
        (detectFraud now d doc ill q).riskScore < 20) ∧
      ((detectFraud now d doc ill q).isAuthentic = true ↔
        ((detectFraud now d doc ill q).riskLevel ≠ .high ∧
          (detectFraud now d doc ill q).riskLevel ≠ .critical)) := by
  intro now d doc ill q
  have hlevel : (detectFraud now d doc ill q).riskLevel =
      levelOf ((detectFraud now d doc ill q).riskScore) := rfl
  have hle : (detectFraud now d doc ill q).riskScore ≤ 100 :=
    Nat.min_le_left 100 _
  have hiff := levelOf_iff ((detectFraud now d doc ill q).riskScore)
  refine ⟨hle, ?_, ?_, ?_, ?_, ?_⟩
  · rw [hlevel]; exact hiff.1
  · rw [hlevel]; exact hiff.2.1
  · rw [hlevel]; exact hiff.2.2.1
  · rw [hlevel]; exact hiff.2.2.2
  · have hauth : (detectFraud now d doc ill q).isAuthentic =
        decide ((detectFraud now d doc ill q).riskLevel ≠ .critical ∧
          (detectFraud now d doc ill q).riskLevel ≠ .high) := rfl
    rw [hauth]
    simp only [decide_eq_true_eq]
    constructor
    · exact fun h => ⟨h.2, h.1⟩
    · exact fun h => ⟨h.2, h.1⟩

/-! ## Claim C6: state-code plus gender-mismatch scoring -/

/-- C6 (counterexample): a field map satisfying the claim's premises (an
18-character CURP with invalid state code `XX` and declared gender `M`
contradicting the CURP's `H`) on which a third rule (RFC/CURP mismatch)
also fires, pushing the score to 95 — the level is `critical`, not
`high`. -/
theorem c6_counterexample :
    fraudThreeRuleDoc.curp = some ("AAAA400101HXXAAA01".data) ∧
    ("AAAA400101HXXAAA01".data).length = 18 ∧
    extractStateFromCURP ("AAAA400101HXXAAA01".data) = some ("XX".data) ∧
    VALID_STATE_CODES.contains ("XX".data) = false ∧
    extractGenderFromCURP ("AAAA400101HXXAAA01".data) = some 'H' ∧
    fraudThreeRuleDoc.sexo = some ("M".data) ∧
    expectedGenderOf ("M".data) = some 'M' ∧ 'H' ≠ 'M' ∧
    (detectFraud now0 fraudThreeRuleDoc ("ine".data) [] none).riskScore = 95 ∧
    (detectFraud now0 fraudThreeRuleDoc ("ine".data) [] none).riskLevel =
      .critical ∧
    (detectFraud now0 fraudThreeRuleDoc ("ine".data) [] none).riskLevel ≠
      .high := by
  decide

/-- C6 (amended): with an asterisk-free 18-character CURP whose state code
is invalid and a declared gender contradicting the CURP gender, the risk
score is at least 55; the level is `high` exactly on the claim's premise
that the total stays below 70 (other rules can push it to `critical`). -/
theorem c6_amended (now : Int) (d : ExtractedData) (doc : Str)
    (ill : List String) (q : Option Str) (c : Str) (sc : Str)
    (hc : d.curp = some c) (hstar : c.contains '*' = false)
    (hlen : c.length = 18)
    (hsc : extractStateFromCURP c = some sc)
    (hbad : VALID_STATE_CODES.contains sc = false)
    (g : Char) (hg : extractGenderFromCURP c = some g)
    (sx : Str) (hsx : d.sexo = some sx)
    (eg : Char) (heg : expectedGenderOf sx = some eg) (hne : g ≠ eg) :
    55 ≤ (detectFraud now d doc ill q).riskScore ∧
    ((detectFraud now d doc ill q).riskScore < 70 →
      (detectFraud now d doc ill q).riskLevel = .high) := by
  have hcne : c ≠ [] := by
    intro hemp
    rw [hemp] at hlen
    exact absurd hlen (by decide)
  have hsxne : sx ≠ [] := by
    intro hemp
    rw [hemp] at heg
    rw [show expectedGenderOf ([] : Str) = none from rfl] at heg
    exact absurd heg (by simp)
  have hst : (stateSub c).2 = 30 := by
    simp only [stateSub, hsc, hbad]
    rfl
  have hgd : (genderSub c d).2 = 25 := by
    simp only [genderSub, hg, hsx, heg]
    rw [if_neg hsxne, if_pos hne]
  have hcb : (curpBlock now doc d).2 =
      30 + 25 + (birthSub now doc c d).2 := by
    simp only [curpBlock, hc]
    rw [if_neg (by
      rintro (hemp | hcontains)
      · exact hcne hemp
      · rw [hstar] at hcontains
        exact absurd hcontains (by simp))]
    simp only [hst, hgd]
  have hscore : (detectFraud now d doc ill q).riskScore =
      min 100 ((qualityBlock q).2 + (illegibleBlock ill).2 +
        (curpBlock now doc d).2 + (rfcCurpBlock d).2 + (expiryBlock now d).2 +
        (nameBlock d).2 + (vehicleBlock now doc d).2) := rfl
  have h55 : 55 ≤ (detectFraud now d doc ill q).riskScore := by
    rw [hscore, hcb]
    rw [Nat.le_min]
    constructor
    · norm_num
    · omega
  refine ⟨h55, ?_⟩
  intro hlt
  have hlevel : (detectFraud now d doc ill q).riskLevel =
      levelOf ((detectFraud now d doc ill q).riskScore) := rfl
  rw [hlevel]
  exact (levelOf_iff _).2.1.mpr ⟨by omega, hlt⟩

/-- C6 witness: the amended theorem at the two-rule document, where the
score is exactly 55 and the level `high`. -/
theorem c6_amended_witness :
    55 ≤ (detectFraud now0 fraudTwoRuleDoc ("ine".data) [] none).riskScore ∧
    (detectFraud now0 fraudTwoRuleDoc ("ine".data) [] none).riskLevel =
      .high := by
  have h := c6_amended now0 fraudTwoRuleDoc ("ine".data) [] none
    ("AAAA400101HXXAAA01".data) ("XX".data) rfl (by decide) (by decide)
    (by decide) (by decide) 'H' (by decide) ("M".data) rfl 'M' (by decide)
    (by decide)
  exact ⟨h.1, h.2 (by decide)⟩

/-! ## Claim C10: asterisk values and fraud rules

The claim fails on the declared-gender field: `detectFraud` never guards
`sexo` with an asterisk check, so a `sexo` of `M*` is read and still
triggers the gender-mismatch rule against a clean CURP. -/

/-- C10 (counterexample): `starSexoDoc.sexo = "M*"` contains `*`, yet the
gender-mismatch rule (which reads that value) fires and contributes 25
risk points. -/
theorem c10_counterexample :
    starSexoDoc.sexo = some ['M', '*'] ∧
    (['M', '*'] : Str).contains '*' = true ∧
    (detectFraud now0 starSexoDoc ("ine".data) [] none).fraudIndicators =
      [⟨.genderMismatch, .error, some "curp"⟩] ∧
    (detectFraud now0 starSexoDoc ("ine".data) [] none).riskScore = 25 := by
  decide

/-- C10 (amended): a `*` in the CURP disables the whole CURP block and the
RFC cross-check; a `*` in the RFC disables the RFC cross-check; a `*` in
the selected expiry value, in `nombre`, in `vin` or in `anio` disables the
rules reading those values; and when every one of those values (CURP,
nombre, VIN, year, expiry) contains `*`, only the image-quality and
illegible-count rules contribute indicators and score.  (The declared
gender `sexo` and declared birth date `fechaNacimiento` are read without
an asterisk guard; `sexo` with `*` can still trigger the gender rule, as
the counterexample shows.) -/
theorem c10_amended :
    (∀ (now : Int) (doc : Str) (d : ExtractedData) (c : Str),
      d.curp = some c → c.contains '*' = true →
      curpBlock now doc d = ([], 0) ∧ rfcCurpBlock d = ([], 0)) ∧
    (∀ (d : ExtractedData) (r : Str),
      d.rfc = some r → r.contains '*' = true → rfcCurpBlock d = ([], 0)) ∧
    (∀ (now : Int) (d : ExtractedData) (v : Str),
      expiryValue d = some v → v.contains '*' = true →
      expiryBlock now d = ([], 0)) ∧
    (∀ (d : ExtractedData) (v : Str),
      d.nombre = some v → v.contains '*' = true → nameBlock d = ([], 0)) ∧
    (∀ (d : ExtractedData) (v : Str),
      d.vin = some v → v.contains '*' = true → vinSub d = ([], 0)) ∧
    (∀ (now : Int) (d : ExtractedData) (v : Str),
      d.anio = some v → v.contains '*' = true → yearSub now d = ([], 0)) ∧
    (∀ (now : Int) (d : ExtractedData) (doc : Str) (ill : List String)
      (q : Option Str),
      (∀ c, d.curp = some c → c.contains '*' = true) →
      (∀ v, d.nombre = some v → v.contains '*' = true) →
      (∀ v, d.vin = some v → v.contains '*' = true) →
      (∀ v, d.anio = some v → v.contains '*' = true) →
      (∀ v, expiryValue d = some v → v.contains '*' = true) →
      (detectFraud now d doc ill q).riskScore =
        min 100 ((qualityBlock q).2 + (illegibleBlock ill).2) ∧
      (detectFraud now d doc ill q).fraudIndicators =
        (qualityBlock q).1 ++ (illegibleBlock ill).1) := by
  have hcurp : ∀ (now : Int) (doc : Str) (d : ExtractedData) (c : Str),
      d.curp = some c → c.contains '*' = true → curpBlock now doc d = ([], 0) := by
    intro now doc d c hc hstar
    simp only [curpBlock, hc]
    rw [if_pos (Or.inr hstar)]
  have hrfc0 : ∀ (d : ExtractedData), d.curp = none → rfcCurpBlock d = ([], 0) := by
    intro d hc
    unfold rfcCurpBlock
    rw [hc]
    cases d.rfc <;> rfl
  have hrfcCurpStar : ∀ (d : ExtractedData) (c : Str),
      d.curp = some c → c.contains '*' = true → rfcCurpBlock d = ([], 0) := by
    intro d c hc hstar
    unfold rfcCurpBlock
    rw [hc]
    cases d.rfc with
    | none => rfl
    | some r =>
      dsimp only
      rw [if_neg (by
        rintro ⟨-, -, -, hns⟩
        rw [hstar] at hns
        exact hns rfl)]
  have hrfcStar : ∀ (d : ExtractedData) (r : Str),
      d.rfc = some r → r.contains '*' = true → rfcCurpBlock d = ([], 0) := by
    intro d r hr hstar
    unfold rfcCurpBlock
    rw [hr]
    cases d.curp with
    | none => rfl
    | some c =>
      dsimp only
      rw [if_neg (by
        rintro ⟨-, -, hns, -⟩
        rw [hstar] at hns
        exact hns rfl)]
  have hexp : ∀ (now : Int) (d : ExtractedData) (v : Str),
      expiryValue d = some v → v.contains '*' = true →
      expiryBlock now d = ([], 0) := by
    intro now d v hv hstar
    unfold expiryBlock
    rw [hv]
    dsimp only
    rw [if_pos hstar]
  have hname : ∀ (d : ExtractedData) (v : Str),
      d.nombre = some v → v.contains '*' = true → nameBlock d = ([], 0) := by
    intro d v hv hstar
    unfold nameBlock
    rw [hv]
    dsimp only
    rw [if_pos (Or.inr hstar)]
  have hvin : ∀ (d : ExtractedData) (v : Str),
      d.vin = some v → v.contains '*' = true → vinSub d = ([], 0) := by
    intro d v hv hstar
    unfold vinSub
    rw [hv]
    dsimp only
    rw [if_pos (Or.inr hstar)]
  have hyear : ∀ (now : Int) (d : ExtractedData) (v : Str),
      d.anio = some v → v.contains '*' = true → yearSub now d = ([], 0) := by
    intro now d v hv hstar
    unfold yearSub
    rw [hv]
    dsimp only
    rw [if_pos (Or.inr hstar)]
  refine ⟨fun now doc d c hc hs => ⟨hcurp now doc d c hc hs, hrfcCurpStar d c hc hs⟩,
    hrfcStar, hexp, hname, hvin, hyear, ?_⟩
  intro now d doc ill q hcu hno hvi han hex
  have h3 : curpBlock now doc d = ([], 0) := by
    cases hc : d.curp with
    | none => unfold curpBlock; rw [hc]
    | some c => exact hcurp now doc d c hc (hcu c hc)
  have h4 : rfcCurpBlock d = ([], 0) := by
    cases hc : d.curp with
    | none => exact hrfc0 d hc
    | some c => exact hrfcCurpStar d c hc (hcu c hc)
  have h5 : expiryBlock now d = ([], 0) := by
    cases hv : expiryValue d with
    | none => unfold expiryBlock; rw [hv]
    | some v => exact hexp now d v hv (hex v hv)
  have h6 : nameBlock d = ([], 0) := by
    cases hv : d.nombre with
    | none => unfold nameBlock; rw [hv]
    | some v => exact hname d v hv (hno v hv)
  have hvs : vinSub d = ([], 0) := by
    cases hv : d.vin with
    | none => unfold vinSub; rw [hv]
    | some v => exact hvin d v hv (hvi v hv)
  have hys : yearSub now d = ([], 0) := by
    cases hv : d.anio with
    | none => unfold yearSub; rw [hv]
    | some v => exact hyear now d v hv (han v hv)
  have h7 : vehicleBlock now doc d = ([], 0) := by
    unfold vehicleBlock
    split_ifs
    · rw [hvs, hys]
      rfl
    · rfl
  constructor
  · have hscore : (detectFraud now d doc ill q).riskScore =
        min 100 ((qualityBlock q).2 + (illegibleBlock ill).2 +
          (curpBlock now doc d).2 + (rfcCurpBlock d).2 + (expiryBlock now d).2 +
          (nameBlock d).2 + (vehicleBlock now doc d).2) := rfl
    rw [hscore, h3, h4, h5, h6, h7]
    simp
  · have hind : (detectFraud now d doc ill q).fraudIndicators =
        (qualityBlock q).1 ++ (illegibleBlock ill).1 ++ (curpBlock now doc d).1 ++
          (rfcCurpBlock d).1 ++ (expiryBlock now d).1 ++ (nameBlock d).1 ++
          (vehicleBlock now doc d).1 := rfl
    rw [hind, h3, h4, h5, h6, h7]
    simp

/-- C10 witness: the corollary of the amended theorem at a document whose
CURP, VIN, nombre, anio and expiry values all contain `*`: only the
image-quality (+15) and illegible-count (+30) rules score. -/
theorem c10_amended_witness :
    (detectFraud now0 allStarDoc ("circulacion".data) ["curp", "vin", "nombre"]
      (some ("mala".data))).riskScore = 45 := by
  have h := c10_amended.2.2.2.2.2.2 now0 allStarDoc ("circulacion".data)
    ["curp", "vin", "nombre"] (some ("mala".data))
    (by intro c hc; cases hc; decide)
    (by intro v hv; cases hv; decide)
    (by intro v hv; cases hv; decide)
    (by intro v hv; cases hv; decide)
    (by intro v hv; cases hv; decide)
  rw [h.1]
  decide

/-! ## Post-processor decomposition (for claims C5 and C8) -/

theorem handleValidated_eq (name : String) (get : ExtractedData → Option Str)
    (set : ExtractedData → Str → ExtractedData)
    (validator : Str → FieldValidationResult) (d : ExtractedData) (st : PPState) :
    handleValidated name get set validator d st =
      ⟨hvOut set validator (get d) st.out,
       st.corrections ++ hvCorrs name validator (get d),
       st.illegible ++ hvIll name (get d),
       st.total + (confContribution validator (get d)).sum,
       st.count + (confContribution validator (get d)).length⟩ := by
  obtain ⟨o, cs, il, t, n⟩ := st
  unfold handleValidated hvOut hvCorrs hvIll confContribution
  cases get d with
  | none => simp
  | some v =>
    by_cases hv : v = []
    · simp [hv]
    · by_cases hi : isIllegible v
      · simp [hv, hi]
      · by_cases hcor : (validator v).corrected ≠ v
        · simp [hv, hi, hcor]
        · simp [hv, hi, hcor]

theorem handleName_eq (name : String) (get : ExtractedData → Option Str)
    (set : ExtractedData → Str → ExtractedData) (fmt : Str → Str)
    (d : ExtractedData) (st : PPState) :
    handleName name get set fmt d st =
      ⟨hnOut set fmt (get d) st.out, st.corrections,
       st.illegible ++ hvIll name (get d), st.total, st.count⟩ := by
  obtain ⟨o, cs, il, t, n⟩ := st
  unfold handleName hnOut hvIll
  cases get d with
  | none => simp
  | some v =>
    by_cases hv : v = []
    · simp [hv]
    · by_cases hi : isIllegible v
      · simp [hv, hi]
      · simp [hv, hi]

theorem ppChain_total (d : ExtractedData) :
    (ppChain d).total = (ranConfs d).sum := by
  unfold ppChain ranConfs
  simp only [handleValidated_eq, handleName_eq]
  simp [List.sum_append]
  ring

theorem ppChain_count (d : ExtractedData) :
    (ppChain d).count = (ranConfs d).length := by
  unfold ppChain ranConfs
  simp only [handleValidated_eq, handleName_eq]
  simp [List.length_append]
  omega

theorem ppChain_corrections (d : ExtractedData) :
    (ppChain d).corrections = ppCorrsList d := by
  unfold ppChain ppCorrsList
  simp only [handleValidated_eq, handleName_eq]
  simp [List.append_assoc]

theorem ppChain_ill (d : ExtractedData) :
    (ppChain d).illegible = ppIllList d := by
  unfold ppChain ppIllList
  simp only [handleValidated_eq, handleName_eq]
  simp [List.append_assoc]

theorem ppChain_out (d : ExtractedData) : (ppChain d).out = ppOut d := by
  unfold ppChain ppOut
  simp only [handleValidated_eq, handleName_eq]

/-- A field update that does not touch the projected field preserves it
through one validated-field output step. -/
theorem hvOut_pres (proj : ExtractedData → Option Str)
    (set : ExtractedData → Str → ExtractedData)
    (hset : ∀ e w, proj (set e w) = proj e)
    (validator : Str → FieldValidationResult) (v? : Option Str)
    (o : ExtractedData) : proj (hvOut set validator v? o) = proj o := by
  unfold hvOut
  cases v? with
  | none => rfl
  | some v =>
    dsimp only
    split_ifs <;> simp [hset]

theorem hnOut_pres (proj : ExtractedData → Option Str)
    (set : ExtractedData → Str → ExtractedData)
    (hset : ∀ e w, proj (set e w) = proj e)
    (fmt : Str → Str) (v? : Option Str) (o : ExtractedData) :
    proj (hnOut set fmt v? o) = proj o := by
  unfold hnOut
  cases v? with
  | none => rfl
  | some v =>
    dsimp only
    split_ifs <;> simp [hset]

theorem isIllegible_ne_nil {v : Str} (h : isIllegible v = true) : v ≠ [] := by
  intro hemp
  rw [hemp] at h
  exact absurd h (by decide)

/-! ## Claim C8: overall confidence -/

/-- C8 (counterexample): a field map holding only a license plate has no
checksum-bearing field (no CURP, CLABE or NSS — the plate validator has no
checksum), yet `overallConfidence` is 0.85, not the claimed default 0.3. -/
theorem c8_counterexample :
    placasOnlyDoc.curp = none ∧ placasOnlyDoc.clabe = none ∧
    placasOnlyDoc.nss = none ∧
    (postProcessExtractedData placasOnlyDoc).overallConfidence = 17/20 ∧
    ((17 : ℚ)/20) ≠ 3/10 := by
  refine ⟨rfl, rfl, rfl, ?_, by norm_num⟩
  rw [show (postProcessExtractedData placasOnlyDoc).overallConfidence =
      (if (ppChain placasOnlyDoc).count > 0 then
        (ppChain placasOnlyDoc).total / ((ppChain placasOnlyDoc).count : ℚ)
      else 3/10) from rfl]
  rw [ppChain_total, ppChain_count]
  rw [show ranConfs placasOnlyDoc = [17/20] from rfl]
  norm_num

/-- C8 (amended): `overallConfidence` is the arithmetic mean of the
confidences of the validators that ran (name-like fields excluded), and
defaults to 0.3 exactly when no validator ran — when none of the six
validated fields was present, non-empty and legible (a plate-only map is
a counterexample to the claim's "checksum-bearing" wording). -/
theorem c8_amended (d : ExtractedData) :
    (postProcessExtractedData d).overallConfidence =
      if ranConfs d = [] then (3/10 : ℚ)
      else (ranConfs d).sum / ((ranConfs d).length : ℚ) := by
  rw [show (postProcessExtractedData d).overallConfidence =
      (if (ppChain d).count > 0 then
        (ppChain d).total / ((ppChain d).count : ℚ)
      else 3/10) from rfl]
  rw [ppChain_total, ppChain_count]
  by_cases hc : ranConfs d = []
  · rw [if_pos hc, hc]
    norm_num
  · rw [if_neg hc, if_pos (List.length_pos.mpr hc)]

/-! ## Claim C5: illegible values pass through untouched -/

/-- C5: for each handled field, a present value that is illegible (equals
`***` or contains `*`) is never validated: it reappears verbatim in
`correctedData`, its key is recorded in `illegibleFields`, and it leaves
the correction log and the overall confidence exactly as if the field were
absent. -/
theorem c5_illegible_passthrough :
    (∀ (d : ExtractedData) (v : Str), d.curp = some v → isIllegible v = true →
      (postProcessExtractedData d).correctedData.curp = some v ∧
      "curp" ∈ (postProcessExtractedData d).illegibleFields ∧
      (postProcessExtractedData d).corrections =
        (postProcessExtractedData { d with curp := none }).corrections ∧
      (postProcessExtractedData d).overallConfidence =
        (postProcessExtractedData { d with curp := none }).overallConfidence) ∧
    (∀ (d : ExtractedData) (v : Str), d.rfc = some v → isIllegible v = true →
      (postProcessExtractedData d).correctedData.rfc = some v ∧
      "rfc" ∈ (postProcessExtractedData d).illegibleFields ∧
      (postProcessExtractedData d).corrections =
        (postProcessExtractedData { d with rfc := none }).corrections ∧
      (postProcessExtractedData d).overallConfidence =
        (postProcessExtractedData { d with rfc := none }).overallConfidence) ∧
    (∀ (d : ExtractedData) (v : Str), d.clabe = some v → isIllegible v = true →
      (postProcessExtractedData d).correctedData.clabe = some v ∧
      "clabe" ∈ (postProcessExtractedData d).illegibleFields ∧
      (postProcessExtractedData d).corrections =
        (postProcessExtractedData { d with clabe := none }).corrections ∧
      (postProcessExtractedData d).overallConfidence =
        (postProcessExtractedData { d with clabe := none }).overallConfidence) ∧
    (∀ (d : ExtractedData) (v : Str), d.placas = some v → isIllegible v = true →
      (postProcessExtractedData d).correctedData.placas = some v ∧
      "placas" ∈ (postProcessExtractedData d).illegibleFields ∧
      (postProcessExtractedData d).corrections =
        (postProcessExtractedData { d with placas := none }).corrections ∧
      (postProcessExtractedData d).overallConfidence =
        (postProcessExtractedData { d with placas := none }).overallConfidence) ∧
    (∀ (d : ExtractedData) (v : Str), d.vin = some v → isIllegible v = true →
      (postProcessExtractedData d).correctedData.vin = some v ∧
      "vin" ∈ (postProcessExtractedData d).illegibleFields ∧
      (postProcessExtractedData d).corrections =
        (postProcessExtractedData { d with vin := none }).corrections ∧
      (postProcessExtractedData d).overallConfidence =
        (postProcessExtractedData { d with vin := none }).overallConfidence) ∧
    (∀ (d : ExtractedData) (v : Str), d.nss = some v → isIllegible v = true →
      (postProcessExtractedData d).correctedData.nss = some v ∧
      "nss" ∈ (postProcessExtractedData d).illegibleFields ∧
      (postProcessExtractedData d).corrections =
        (postProcessExtractedData { d with nss := none }).corrections ∧
      (postProcessExtractedData d).overallConfidence =
        (postProcessExtractedData { d with nss := none }).overallConfidence) ∧
    (∀ (d : ExtractedData) (v : Str), d.nombre = some v → isIllegible v = true →
      (postProcessExtractedData d).correctedData.nombre = some v ∧
      "nombre" ∈ (postProcessExtractedData d).illegibleFields ∧
      (postProcessExtractedData d).corrections =
        (postProcessExtractedData { d with nombre := none }).corrections ∧
      (postProcessExtractedData d).overallConfidence =
        (postProcessExtractedData { d with nombre := none }).overallConfidence) ∧
    (∀ (d : ExtractedData) (v : Str), d.razonSocial = some v → isIllegible v = true →
      (postProcessExtractedData d).correctedData.razonSocial = some v ∧
      "razonSocial" ∈ (postProcessExtractedData d).illegibleFields ∧
      (postProcessExtractedData d).corrections =
        (postProcessExtractedData { d with razonSocial := none }).corrections ∧
      (postProcessExtractedData d).overallConfidence =
        (postProcessExtractedData { d with razonSocial := none }).overallConfidence) := by
  refine ⟨?_, ?_, ?_, ?_, ?_, ?_, ?_, ?_⟩
  · intro d v hget hi
    have hvne : v ≠ [] := isIllegible_ne_nil hi
    refine ⟨?_, ?_, ?_, ?_⟩
    · rw [show (postProcessExtractedData d).correctedData = (ppChain d).out from rfl,
          ppChain_out]
      unfold ppOut
      rw [hnOut_pres ExtractedData.curp setRazonSocial (fun e w => rfl),
          hnOut_pres ExtractedData.curp setNombre (fun e w => rfl),
          hvOut_pres ExtractedData.curp setNss (fun e w => rfl),
          hvOut_pres ExtractedData.curp setVin (fun e w => rfl),
          hvOut_pres ExtractedData.curp setPlacas (fun e w => rfl),
          hvOut_pres ExtractedData.curp setClabe (fun e w => rfl),
          hvOut_pres ExtractedData.curp setRfc (fun e w => rfl)]
      rw [hget]
      dsimp only [hvOut]
      rw [if_neg hvne, if_pos hi]
      rfl
    · rw [show (postProcessExtractedData d).illegibleFields = (ppChain d).illegible from rfl,
          ppChain_ill]
      unfold ppIllList
      simp [hvIll, hget, hvne, hi]
    · rw [show (postProcessExtractedData d).corrections = (ppChain d).corrections from rfl,
          show (postProcessExtractedData { d with curp := none }).corrections =
            (ppChain { d with curp := none }).corrections from rfl,
          ppChain_corrections, ppChain_corrections]
      simp [ppCorrsList, hvCorrs, hget, hvne, hi]
    · have hr : ranConfs d = ranConfs { d with curp := none } := by
        simp [ranConfs, confContribution, hget, hvne, hi]
      rw [show (postProcessExtractedData d).overallConfidence =
            (if (ppChain d).count > 0 then
              (ppChain d).total / ((ppChain d).count : ℚ) else 3/10) from rfl,
          show (postProcessExtractedData { d with curp := none }).overallConfidence =
            (if (ppChain { d with curp := none }).count > 0 then
              (ppChain { d with curp := none }).total / ((ppChain { d with curp := none }).count : ℚ) else 3/10) from rfl,
          ppChain_total d, ppChain_count d, ppChain_total { d with curp := none },
          ppChain_count { d with curp := none }, hr]
  · intro d v hget hi
    have hvne : v ≠ [] := isIllegible_ne_nil hi
    refine ⟨?_, ?_, ?_, ?_⟩
    · rw [show (postProcessExtractedData d).correctedData = (ppChain d).out from rfl,
          ppChain_out]
      unfold ppOut
      rw [hnOut_pres ExtractedData.rfc setRazonSocial (fun e w => rfl),
          hnOut_pres ExtractedData.rfc setNombre (fun e w => rfl),
          hvOut_pres ExtractedData.rfc setNss (fun e w => rfl),
          hvOut_pres ExtractedData.rfc setVin (fun e w => rfl),
          hvOut_pres ExtractedData.rfc setPlacas (fun e w => rfl),
          hvOut_pres ExtractedData.rfc setClabe (fun e w => rfl)]
      rw [hget]
      dsimp only [hvOut]
      rw [if_neg hvne, if_pos hi]
      rfl
    · rw [show (postProcessExtractedData d).illegibleFields = (ppChain d).illegible from rfl,
          ppChain_ill]
      unfold ppIllList
      simp [hvIll, hget, hvne, hi]
    · rw [show (postProcessExtractedData d).corrections = (ppChain d).corrections from rfl,
          show (postProcessExtractedData { d with rfc := none }).corrections =
            (ppChain { d with rfc := none }).corrections from rfl,
          ppChain_corrections, ppChain_corrections]
      simp [ppCorrsList, hvCorrs, hget, hvne, hi]
    · have hr : ranConfs d = ranConfs { d with rfc := none } := by
        simp [ranConfs, confContribution, hget, hvne, hi]
      rw [show (postProcessExtractedData d).overallConfidence =
            (if (ppChain d).count > 0 then
              (ppChain d).total / ((ppChain d).count : ℚ) else 3/10) from rfl,
          show (postProcessExtractedData { d with rfc := none }).overallConfidence =
            (if (ppChain { d with rfc := none }).count > 0 then
              (ppChain { d with rfc := none }).total / ((ppChain { d with rfc := none }).count : ℚ) else 3/10) from rfl,
          ppChain_total d, ppChain_count d, ppChain_total { d with rfc := none },
          ppChain_count { d with rfc := none }, hr]
  · intro d v hget hi
    have hvne : v ≠ [] := isIllegible_ne_nil hi
    refine ⟨?_, ?_, ?_, ?_⟩
    · rw [show (postProcessExtractedData d).correctedData = (ppChain d).out from rfl,
          ppChain_out]
      unfold ppOut
      rw [hnOut_pres ExtractedData.clabe setRazonSocial (fun e w => rfl),
          hnOut_pres ExtractedData.clabe setNombre (fun e w => rfl),
          hvOut_pres ExtractedData.clabe setNss (fun e w => rfl),
          hvOut_pres ExtractedData.clabe setVin (fun e w => rfl),
          hvOut_pres ExtractedData.clabe setPlacas (fun e w => rfl)]
      rw [hget]
      dsimp only [hvOut]
      rw [if_neg hvne, if_pos hi]
      rfl
    · rw [show (postProcessExtractedData d).illegibleFields = (ppChain d).illegible from rfl,
          ppChain_ill]
      unfold ppIllList
      simp [hvIll, hget, hvne, hi]
    · rw [show (postProcessExtractedData d).corrections = (ppChain d).corrections from rfl,
          show (postProcessExtractedData { d with clabe := none }).corrections =
            (ppChain { d with clabe := none }).corrections from rfl,
          ppChain_corrections, ppChain_corrections]
      simp [ppCorrsList, hvCorrs, hget, hvne, hi]
    · have hr : ranConfs d = ranConfs { d with clabe := none } := by
        simp [ranConfs, confContribution, hget, hvne, hi]
      rw [show (postProcessExtractedData d).overallConfidence =
            (if (ppChain d).count > 0 then
              (ppChain d).total / ((ppChain d).count : ℚ) else 3/10) from rfl,
          show (postProcessExtractedData { d with clabe := none }).overallConfidence =
            (if (ppChain { d with clabe := none }).count > 0 then
              (ppChain { d with clabe := none }).total / ((ppChain { d with clabe := none }).count : ℚ) else 3/10) from rfl,
          ppChain_total d, ppChain_count d, ppChain_total { d with clabe := none },
          ppChain_count { d with clabe := none }, hr]
  · intro d v hget hi
    have hvne : v ≠ [] := isIllegible_ne_nil hi
    refine ⟨?_, ?_, ?_, ?_⟩
    · rw [show (postProcessExtractedData d).correctedData = (ppChain d).out from rfl,
          ppChain_out]
      unfold ppOut
      rw [hnOut_pres ExtractedData.placas setRazonSocial (fun e w => rfl),
          hnOut_pres ExtractedData.placas setNombre (fun e w => rfl),
          hvOut_pres ExtractedData.placas setNss (fun e w => rfl),
          hvOut_pres ExtractedData.placas setVin (fun e w => rfl)]
      rw [hget]
      dsimp only [hvOut]
      rw [if_neg hvne, if_pos hi]
      rfl
    · rw [show (postProcessExtractedData d).illegibleFields = (ppChain d).illegible from rfl,
          ppChain_ill]
      unfold ppIllList
      simp [hvIll, hget, hvne, hi]
    · rw [show (postProcessExtractedData d).corrections = (ppChain d).corrections from rfl,
          show (postProcessExtractedData { d with placas := none }).corrections =
            (ppChain { d with placas := none }).corrections from rfl,
          ppChain_corrections, ppChain_corrections]
      simp [ppCorrsList, hvCorrs, hget, hvne, hi]
    · have hr : ranConfs d = ranConfs { d with placas := none } := by
        simp [ranConfs, confContribution, hget, hvne, hi]
      rw [show (postProcessExtractedData d).overallConfidence =
            (if (ppChain d).count > 0 then
              (ppChain d).total / ((ppChain d).count : ℚ) else 3/10) from rfl,
          show (postProcessExtractedData { d with placas := none }).overallConfidence =
            (if (ppChain { d with placas := none }).count > 0 then
              (ppChain { d with placas := none }).total / ((ppChain { d with placas := none }).count : ℚ) else 3/10) from rfl,
          ppChain_total d, ppChain_count d, ppChain_total { d with placas := none },
          ppChain_count { d with placas := none }, hr]
  · intro d v hget hi
    have hvne : v ≠ [] := isIllegible_ne_nil hi
    refine ⟨?_, ?_, ?_, ?_⟩
    · rw [show (postProcessExtractedData d).correctedData = (ppChain d).out from rfl,
          ppChain_out]
      unfold ppOut
      rw [hnOut_pres ExtractedData.vin setRazonSocial (fun e w => rfl),
          hnOut_pres ExtractedData.vin setNombre (fun e w => rfl),
          hvOut_pres ExtractedData.vin setNss (fun e w => rfl)]
      rw [hget]
      dsimp only [hvOut]
      rw [if_neg hvne, if_pos hi]
      rfl
    · rw [show (postProcessExtractedData d).illegibleFields = (ppChain d).illegible from rfl,
          ppChain_ill]
      unfold ppIllList
      simp [hvIll, hget, hvne, hi]
    · rw [show (postProcessExtractedData d).corrections = (ppChain d).corrections from rfl,
          show (postProcessExtractedData { d with vin := none }).corrections =
            (ppChain { d with vin := none }).corrections from rfl,
          ppChain_corrections, ppChain_corrections]
      simp [ppCorrsList, hvCorrs, hget, hvne, hi]
    · have hr : ranConfs d = ranConfs { d with vin := none } := by
        simp [ranConfs, confContribution, hget, hvne, hi]
      rw [show (postProcessExtractedData d).overallConfidence =
            (if (ppChain d).count > 0 then
              (ppChain d).total / ((ppChain d).count : ℚ) else 3/10) from rfl,
          show (postProcessExtractedData { d with vin := none }).overallConfidence =
            (if (ppChain { d with vin := none }).count > 0 then
              (ppChain { d with vin := none }).total / ((ppChain { d with vin := none }).count : ℚ) else 3/10) from rfl,
          ppChain_total d, ppChain_count d, ppChain_total { d with vin := none },
          ppChain_count { d with vin := none }, hr]
  · intro d v hget hi
    have hvne : v ≠ [] := isIllegible_ne_nil hi
    refine ⟨?_, ?_, ?_, ?_⟩
    · rw [show (postProcessExtractedData d).correctedData = (ppChain d).out from rfl,
          ppChain_out]
      unfold ppOut
      rw [hnOut_pres ExtractedData.nss setRazonSocial (fun e w => rfl),
          hnOut_pres ExtractedData.nss setNombre (fun e w => rfl)]
      rw [hget]
      dsimp only [hvOut]
      rw [if_neg hvne, if_pos hi]
      rfl
    · rw [show (postProcessExtractedData d).illegibleFields = (ppChain d).illegible from rfl,
          ppChain_ill]
      unfold ppIllList
      simp [hvIll, hget, hvne, hi]
    · rw [show (postProcessExtractedData d).corrections = (ppChain d).corrections from rfl,
          show (postProcessExtractedData { d with nss := none }).corrections =
            (ppChain { d with nss := none }).corrections from rfl,
          ppChain_corrections, ppChain_corrections]
      simp [ppCorrsList, hvCorrs, hget, hvne, hi]
    · have hr : ranConfs d = ranConfs { d with nss := none } := by
        simp [ranConfs, confContribution, hget, hvne, hi]
      rw [show (postProcessExtractedData d).overallConfidence =
            (if (ppChain d).count > 0 then
              (ppChain d).total / ((ppChain d).count : ℚ) else 3/10) from rfl,
          show (postProcessExtractedData { d with nss := none }).overallConfidence =
            (if (ppChain { d with nss := none }).count > 0 then
              (ppChain { d with nss := none }).total / ((ppChain { d with nss := none }).count : ℚ) else 3/10) from rfl,
          ppChain_total d, ppChain_count d, ppChain_total { d with nss := none },
          ppChain_count { d with nss := none }, hr]
  · intro d v hget hi
    have hvne : v ≠ [] := isIllegible_ne_nil hi
    refine ⟨?_, ?_, ?_, ?_⟩
    · rw [show (postProcessExtractedData d).correctedData = (ppChain d).out from rfl,
          ppChain_out]
      unfold ppOut
      rw [hnOut_pres ExtractedData.nombre setRazonSocial (fun e w => rfl)]
      rw [hget]
      dsimp only [hnOut]
      rw [if_neg hvne, if_pos hi]
      rfl
    · rw [show (postProcessExtractedData d).illegibleFields = (ppChain d).illegible from rfl,
          ppChain_ill]
      unfold ppIllList
      simp [hvIll, hget, hvne, hi]
    · rw [show (postProcessExtractedData d).corrections = (ppChain d).corrections from rfl,
          show (postProcessExtractedData { d with nombre := none }).corrections =
            (ppChain { d with nombre := none }).corrections from rfl,
          ppChain_corrections, ppChain_corrections]
      simp [ppCorrsList, hvCorrs, hget, hvne, hi]
    · have hr : ranConfs d = ranConfs { d with nombre := none } := by
        simp [ranConfs, confContribution, hget, hvne, hi]
      rw [show (postProcessExtractedData d).overallConfidence =
            (if (ppChain d).count > 0 then
              (ppChain d).total / ((ppChain d).count : ℚ) else 3/10) from rfl,
          show (postProcessExtractedData { d with nombre := none }).overallConfidence =
            (if (ppChain { d with nombre := none }).count > 0 then
              (ppChain { d with nombre := none }).total / ((ppChain { d with nombre := none }).count : ℚ) else 3/10) from rfl,
          ppChain_total d, ppChain_count d, ppChain_total { d with nombre := none },
          ppChain_count { d with nombre := none }, hr]
  · intro d v hget hi
    have hvne : v ≠ [] := isIllegible_ne_nil hi
    refine ⟨?_, ?_, ?_, ?_⟩
    · rw [show (postProcessExtractedData d).correctedData = (ppChain d).out from rfl,
          ppChain_out]
      unfold ppOut
      rw [hget]
      dsimp only [hnOut]
      rw [if_neg hvne, if_pos hi]
      rfl
    · rw [show (postProcessExtractedData d).illegibleFields = (ppChain d).illegible from rfl,
          ppChain_ill]
      unfold ppIllList
      simp [hvIll, hget, hvne, hi]
    · rw [show (postProcessExtractedData d).corrections = (ppChain d).corrections from rfl,
          show (postProcessExtractedData { d with razonSocial := none }).corrections =
            (ppChain { d with razonSocial := none }).corrections from rfl,
          ppChain_corrections, ppChain_corrections]
      simp [ppCorrsList, hvCorrs, hget, hvne, hi]
    · have hr : ranConfs d = ranConfs { d with razonSocial := none } := by
        simp [ranConfs, confContribution, hget, hvne, hi]
      rw [show (postProcessExtractedData d).overallConfidence =
            (if (ppChain d).count > 0 then
              (ppChain d).total / ((ppChain d).count : ℚ) else 3/10) from rfl,
          show (postProcessExtractedData { d with razonSocial := none }).overallConfidence =
            (if (ppChain { d with razonSocial := none }).count > 0 then
              (ppChain { d with razonSocial := none }).total / ((ppChain { d with razonSocial := none }).count : ℚ) else 3/10) from rfl,
          ppChain_total d, ppChain_count d, ppChain_total { d with razonSocial := none },
          ppChain_count { d with razonSocial := none }, hr]

/-- C5 witness: an illegible CURP next to a valid CLABE: the CURP passes
through, is recorded, and contributes nothing. -/
theorem c5_illegible_passthrough_witness :
    (postProcessExtractedData illegibleCurpDoc).correctedData.curp =
      some ("PEGJ85*1*1HDFRRL09".data) ∧
    "curp" ∈ (postProcessExtractedData illegibleCurpDoc).illegibleFields ∧
    (postProcessExtractedData illegibleCurpDoc).corrections =
      (postProcessExtractedData { illegibleCurpDoc with curp := none }).corrections ∧
    (postProcessExtractedData illegibleCurpDoc).overallConfidence =
      (postProcessExtractedData { illegibleCurpDoc with curp := none }).overallConfidence :=
  c5_illegible_passthrough.1 illegibleCurpDoc ("PEGJ85*1*1HDFRRL09".data)
    rfl (by decide)

/-! ## Claim C9: re-validation as a fixed point

The CURP and RFC validators re-run per-position OCR normalization, which
deletes noise characters and re-triggers length repair, and the CURP
validator appends a freshly computed check digit whenever position 17 is
missing — so re-validating can change the value again.  The other four
validators are idempotent on every input. -/

theorem upperChar_idem (c : Char) : upperChar (upperChar c) = upperChar c :=
  applyMap_idem (by decide) c

theorem digit_fixed_upper {c : Char} (hc : Char.isDigit c = true) :
    upperChar c = c :=
  applyMap_id_of_not_key (by decide) hc

theorem digit_fixed_numeric {c : Char} (hc : Char.isDigit c = true) :
    applyMap numericPairs c = c :=
  applyMap_id_of_not_key (by decide) hc

theorem beq_false_of_pred {c b : Char} {p : Char → Bool} (hc : p c = true)
    (hb : p b = false) : (c == b) = false := by
  by_contra h
  simp only [Bool.not_eq_false, beq_iff_eq] at h
  subst h
  rw [hb] at hc
  exact absurd hc (by simp)

theorem digit_not_ws {c : Char} (hc : Char.isDigit c = true) :
    isJsWs c = false :=
  contains_eq_false_of (by decide) hc

theorem digit_not_noise {c : Char} (hc : Char.isDigit c = true) :
    isNoise c = false := by
  unfold isNoise
  rw [digit_not_ws hc, contains_eq_false_of (l := noiseChars) (by decide) hc]
  rfl

theorem digit_not_hyphenWs {c : Char} (hc : Char.isDigit c = true) :
    isHyphenWs c = false := by
  unfold isHyphenWs
  rw [digit_not_ws hc, beq_false_of_pred hc (show Char.isDigit '-' = false by decide)]
  rfl

theorem normCore_numeric_digits {y : Str} (h : ∀ c ∈ y, Char.isDigit c = true) :
    normCore y .numeric = y := by
  unfold normCore
  dsimp only
  rw [map_id_of (fun c hc => digit_fixed_upper (h c hc))]
  rw [filter_true_of (fun c hc => by rw [digit_not_noise (h c hc)]; rfl)]
  rw [map_id_of (fun c hc => digit_fixed_numeric (h c hc))]

theorem digits_norm_fix {y : Str} (h : ∀ c ∈ y, Char.isDigit c = true) :
    onlyDigits (normalizeOCRString y .numeric) = y := by
  rw [normalizeOCRString_eq_core, normCore_numeric_digits h]
  exact filter_true_of h

/-! ### CLABE idempotence -/

theorem clabeNormalized_len (clabe : Str) :
    (clabeNormalized clabe).1.length ≠ 17 ∧ (clabeNormalized clabe).1.length ≠ 19 := by
  simp only [clabeNormalized]
  split_ifs with h17 h19
  · constructor <;> simp <;> omega
  · rw [List.length_take]
    constructor <;> omega
  · exact ⟨h17, h19⟩

theorem clabeNormalized_fixed {y : Str} (hdig : ∀ c ∈ y, Char.isDigit c = true)
    (h17 : y.length ≠ 17) (h19 : y.length ≠ 19) : clabeNormalized y = (y, []) := by
  simp only [clabeNormalized]
  rw [digits_norm_fix hdig]
  rw [if_neg h17, if_neg h19]

theorem clabe_revalidate_fixed (x : Str) :
    (validateAndFixCLABE ((validateAndFixCLABE x).corrected)).corrected =
      (validateAndFixCLABE x).corrected := by
  by_cases hx : x = []
  · subst hx; rfl
  · have hcor : (validateAndFixCLABE x).corrected = (clabeNormalized x).1 := by
      unfold validateAndFixCLABE
      rw [if_neg hx]
    have hdig := clabeNormalized_digits x
    have hlen := clabeNormalized_len x
    rw [hcor]
    by_cases hyy : (clabeNormalized x).1 = []
    · rw [hyy]; rfl
    · have h2 : (validateAndFixCLABE ((clabeNormalized x).1)).corrected =
          (clabeNormalized ((clabeNormalized x).1)).1 := by
        unfold validateAndFixCLABE
        rw [if_neg hyy]
      rw [h2, clabeNormalized_fixed hdig hlen.1 hlen.2]

/-! ### VIN and plate idempotence -/

theorem stripU_mem {x : Str} {c : Char}
    (h : c ∈ (x.map upperChar).filter (fun c => !(isHyphenWs c))) :
    upperChar c = c ∧ isHyphenWs c = false := by
  obtain ⟨hmem, hkeep⟩ := List.mem_filter.mp h
  obtain ⟨a, -, rfl⟩ := List.mem_map.mp hmem
  exact ⟨upperChar_idem a, by simpa using hkeep⟩

theorem stripU_fix {y : Str}
    (h : ∀ c ∈ y, upperChar c = c ∧ isHyphenWs c = false) :
    (y.map upperChar).filter (fun c => !(isHyphenWs c)) = y := by
  rw [map_id_of (fun c hc => (h c hc).1)]
  exact filter_true_of (fun c hc => by rw [(h c hc).2]; rfl)

theorem placas_revalidate_fixed (x : Str) :
    (validateAndFixPlacas ((validateAndFixPlacas x).corrected)).corrected =
      (validateAndFixPlacas x).corrected := by
  by_cases hx : x = []
  · subst hx; rfl
  · have hcor : (validateAndFixPlacas x).corrected =
        (x.map upperChar).filter (fun c => !(isHyphenWs c)) := by
      unfold validateAndFixPlacas
      rw [if_neg hx]
      dsimp only
      split_ifs <;> rfl
    rw [hcor]
    by_cases hyy : (x.map upperChar).filter (fun c => !(isHyphenWs c)) = []
    · rw [hyy]; rfl
    · have h2 : (validateAndFixPlacas
          ((x.map upperChar).filter (fun c => !(isHyphenWs c)))).corrected =
          ((((x.map upperChar).filter (fun c => !(isHyphenWs c))).map upperChar).filter
            (fun c => !(isHyphenWs c))) := by
        unfold validateAndFixPlacas
        rw [if_neg hyy]
        dsimp only
        split_ifs <;> rfl
      rw [h2, stripU_fix (fun c hc => stripU_mem hc)]

theorem ioqMap_upper {c : Char} (h : upperChar c = c) :
    upperChar (ioqMap c) = ioqMap c := by
  unfold ioqMap
  split_ifs <;> first | decide | exact h

theorem ioqMap_keep {c : Char} (h : isHyphenWs c = false) :
    isHyphenWs (ioqMap c) = false := by
  unfold ioqMap
  split_ifs <;> first | decide | exact h

theorem ioqMap_not_ioq (c : Char) :
    (ioqMap c == 'I' || ioqMap c == 'O' || ioqMap c == 'Q') = false := by
  unfold ioqMap
  split_ifs with h1 h2 h3 <;> simp_all

theorem hasIOQ_map_false : ∀ n : Str, hasIOQ (n.map ioqMap) = false
  | [] => rfl
  | c :: tl => by
    rw [show hasIOQ ((c :: tl).map ioqMap) =
        ((ioqMap c == 'I' || ioqMap c == 'O' || ioqMap c == 'Q') ||
          hasIOQ (tl.map ioqMap)) from rfl]
    rw [ioqMap_not_ioq, hasIOQ_map_false tl]
    rfl

theorem hasIOQ_eq_false_of {y : Str}
    (h : ∀ c ∈ y, (c == 'I' || c == 'O' || c == 'Q') = false) :
    hasIOQ y = false := by
  induction y with
  | nil => rfl
  | cons c tl ih =>
    rw [show hasIOQ (c :: tl) =
        ((c == 'I' || c == 'O' || c == 'Q') || hasIOQ tl) from rfl]
    rw [h c (List.mem_cons_self c tl), ih (fun x hx => h x (List.mem_cons_of_mem c hx))]
    rfl

theorem vin_revalidate_fixed (x : Str) :
    (validateAndFixVIN ((validateAndFixVIN x).corrected)).corrected =
      (validateAndFixVIN x).corrected := by
  by_cases hx : x = []
  · subst hx; rfl
  · have hcor : (validateAndFixVIN x).corrected =
        (if hasIOQ ((x.map upperChar).filter (fun c => !(isHyphenWs c))) then
          ((x.map upperChar).filter (fun c => !(isHyphenWs c))).map ioqMap
        else (x.map upperChar).filter (fun c => !(isHyphenWs c))) := by
      unfold validateAndFixVIN
      rw [if_neg hx]
      dsimp only
      split_ifs <;> rfl
    rw [hcor]
    have hstab : ∀ c ∈ (if hasIOQ ((x.map upperChar).filter (fun c => !(isHyphenWs c))) then
          ((x.map upperChar).filter (fun c => !(isHyphenWs c))).map ioqMap
        else (x.map upperChar).filter (fun c => !(isHyphenWs c))),
        upperChar c = c ∧ isHyphenWs c = false := by
      intro c hc
      split_ifs at hc with hio
      · obtain ⟨a, ha, rfl⟩ := List.mem_map.mp hc
        obtain ⟨h1, h2⟩ := stripU_mem ha
        exact ⟨ioqMap_upper h1, ioqMap_keep h2⟩
      · exact stripU_mem hc
    have hioq : hasIOQ (if hasIOQ ((x.map upperChar).filter (fun c => !(isHyphenWs c))) then
          ((x.map upperChar).filter (fun c => !(isHyphenWs c))).map ioqMap
        else (x.map upperChar).filter (fun c => !(isHyphenWs c))) = false := by
      split_ifs with hio
      · exact hasIOQ_map_false _
      · simpa using hio
    set y := (if hasIOQ ((x.map upperChar).filter (fun c => !(isHyphenWs c))) then
        ((x.map upperChar).filter (fun c => !(isHyphenWs c))).map ioqMap
      else (x.map upperChar).filter (fun c => !(isHyphenWs c))) with hy
    by_cases hyy : y = []
    · rw [hyy]; rfl
    · unfold validateAndFixVIN
      rw [if_neg hyy]
      dsimp only
      rw [stripU_fix hstab]
      rw [if_neg (by rw [hioq]; simp)]

/-! ### NSS idempotence -/

theorem nssCheck_len11_digits {n : Str} (hlen : n.length = 11)
    (hdig : ∀ c ∈ n, Char.isDigit c = true) (corrs : List Correction) :
    (nssCheck n corrs).corrected.length = 11 ∧
    (∀ c ∈ (nssCheck n corrs).corrected, Char.isDigit c = true) := by
  obtain ⟨hc, -⟩ := nssCheck_spec hlen hdig corrs
  rw [hc]
  constructor
  · rw [List.length_append, List.length_take]
    simp
    omega
  · intro c hmem
    rcases List.mem_append.mp hmem with h | h
    · exact hdig c (List.take_subset _ _ h)
    · rw [List.mem_singleton.mp h]
      exact isDigit_digitChar (nssVerifier_lt n)

theorem nssVerifier_congr {a b : Str} (h : a.take 10 = b.take 10) :
    nssVerifier a = nssVerifier b := by
  unfold nssVerifier
  rw [h]

theorem nssCheck_revalidate {n : Str} (hlen : n.length = 11)
    (hdig : ∀ c ∈ n, Char.isDigit c = true) (corrs corrs2 : List Correction) :
    (nssCheck ((nssCheck n corrs).corrected) corrs2).corrected =
      (nssCheck n corrs).corrected := by
  obtain ⟨hc, -⟩ := nssCheck_spec hlen hdig corrs
  obtain ⟨hlen2, hdig2⟩ := nssCheck_len11_digits hlen hdig corrs
  obtain ⟨hc2, -⟩ := nssCheck_spec hlen2 hdig2 corrs2
  have htakelen : (n.take 10).length = 10 := by
    rw [List.length_take]; omega
  have htake : (n.take 10 ++ [digitChar (nssVerifier n)]).take 10 = n.take 10 :=
    List.take_left' htakelen
  rw [hc2, hc, htake, nssVerifier_congr htake]

theorem nss_revalidate_fixed (x : Str) :
    (validateAndFixNSS ((validateAndFixNSS x).corrected)).corrected =
      (validateAndFixNSS x).corrected := by
  by_cases hx : x = []
  · subst hx; rfl
  · have hdig : ∀ c ∈ onlyDigits (normalizeOCRString x .numeric),
        Char.isDigit c = true := fun c hc => mem_onlyDigits hc
    have hself : ∀ (y : Str), y.length = 11 → (∀ c ∈ y, Char.isDigit c = true) →
        ∀ (corrs : List Correction),
        (validateAndFixNSS ((nssCheck y corrs).corrected)).corrected =
          (nssCheck y corrs).corrected := by
      intro y hylen hydig corrs
      obtain ⟨hlen2, hdig2⟩ := nssCheck_len11_digits hylen hydig corrs
      have hne : (nssCheck y corrs).corrected ≠ [] := by
        intro hemp
        rw [hemp] at hlen2
        exact absurd hlen2 (by decide)
      unfold validateAndFixNSS
      rw [if_neg hne]
      rw [digits_norm_fix hdig2]
      rw [if_pos hlen2]
      exact nssCheck_revalidate hylen hydig corrs []
    unfold validateAndFixNSS
    rw [if_neg hx]
    by_cases h11 : (onlyDigits (normalizeOCRString x .numeric)).length = 11
    · rw [if_pos h11]
      exact hself _ h11 hdig []
    · rw [if_neg h11]
      by_cases h10 : (onlyDigits (normalizeOCRString x .numeric)).length = 10
      · rw [if_pos h10]
        refine hself _ (by simp [h10]) ?_ _
        intro c hc
        rcases List.mem_cons.mp hc with h | h
        · subst h; decide
        · exact hdig c h
      · rw [if_neg h10]
        by_cases h12 : (onlyDigits (normalizeOCRString x .numeric)).length = 12
        · rw [if_pos h12]
          refine hself _ (by rw [List.length_take]; omega) ?_ _
          exact fun c hc => hdig c (List.take_subset _ _ hc)
        · rw [if_neg h12]
          show (validateAndFixNSS (onlyDigits (normalizeOCRString x .numeric))).corrected =
            onlyDigits (normalizeOCRString x .numeric)
          by_cases hnd : onlyDigits (normalizeOCRString x .numeric) = []
          · rw [hnd]; rfl
          · unfold validateAndFixNSS
            rw [if_neg hnd]
            rw [digits_norm_fix hdig]
            rw [if_neg h11, if_neg h10, if_neg h12]

/-- C9 (counterexample): re-validating the corrected CURP value of
`"ABCDE"` appends another checksum digit, and re-validating the corrected
RFC value of `"A.CDEFGHIJKL"` (whose noise dot was deleted, leaving 11
characters) triggers the length repair and digit substitutions again. -/
theorem c9_counterexample :
    (validateAndFixCURP ((validateAndFixCURP ("ABCDE".data)).corrected)).corrected ≠
      (validateAndFixCURP ("ABCDE".data)).corrected ∧
    (validateAndFixRFC ((validateAndFixRFC ("A.CDEFGHIJKL".data)).corrected)).corrected ≠
      (validateAndFixRFC ("A.CDEFGHIJKL".data)).corrected := by
  constructor <;> decide

/-- C9 (amended): re-validating an already-corrected value is a fixed point
for the bank-routing-code, VIN, license-plate and social-security
validators on every input; the population-registry and taxpayer-ID
validators violate it (see the counterexample). -/
theorem c9_amended :
    (∀ x : Str, (validateAndFixCLABE ((validateAndFixCLABE x).corrected)).corrected =
      (validateAndFixCLABE x).corrected) ∧
    (∀ x : Str, (validateAndFixVIN ((validateAndFixVIN x).corrected)).corrected =
      (validateAndFixVIN x).corrected) ∧
    (∀ x : Str, (validateAndFixPlacas ((validateAndFixPlacas x).corrected)).corrected =
      (validateAndFixPlacas x).corrected) ∧
    (∀ x : Str, (validateAndFixNSS ((validateAndFixNSS x).corrected)).corrected =
      (validateAndFixNSS x).corrected) :=
  ⟨clabe_revalidate_fixed, vin_revalidate_fixed, placas_revalidate_fixed,
    nss_revalidate_fixed⟩

end DocVal
